import Mathlib

/-!
Shallow embedding of the PowerOcean response-normalization engine
(`src/ecoflow.py`, newer revision of Jan 2025; the near-duplicate older
revision lives under `src/custom_components/powerocean/ecoflow.py`).

Parsed JSON documents are modelled by `JValue`; Python dicts are ordered
association lists with Python's insert-or-replace-in-place semantics
(`dinsert`); Python exceptions are modelled with `Except String`; a Python
function that returns `None` on an explicit abort path is modelled with
`Option` inside `Except`.  Numeric values are exact rationals.
-/

set_option maxRecDepth 4000

/-- A parsed JSON value (what `json_loads` produces and what the fetch layer
hands to `_get_sensors`). Objects keep insertion order, like Python dicts. -/
inductive JValue where
  | jnull
  | jbool (b : Bool)
  | jnum (q : Rat)
  | jstr (s : String)
  | jarr (elems : List JValue)
  | jobj (fields : List (String × JValue))

/-- First-match lookup in an ordered association list (Python dict lookup;
dicts built by `dinsert` have unique keys, so first match is the match). -/
def dlookup {α : Type} : List (String × α) → String → Option α
  | [], _ => none
  | (k', v) :: rest, k => if k' = k then some v else dlookup rest k

/-- Python dict assignment `m[k] = v`: replace in place if the key exists,
append at the end otherwise. -/
def dinsert {α : Type} : List (String × α) → String → α → List (String × α)
  | [], k, v => [(k, v)]
  | (k', v') :: rest, k, v =>
      if k' = k then (k, v) :: rest else (k', v') :: dinsert rest k v

/-- Python `dict.update(m, upd)`: assign every entry of `upd` in order. -/
def dupdate {α : Type} (m upd : List (String × α)) : List (String × α) :=
  upd.foldl (fun acc e => dinsert acc e.1 e.2) m

def dkeys {α : Type} (m : List (String × α)) : List String := m.map Prod.fst

def JValue.isObj : JValue → Bool
  | .jobj _ => true
  | _ => false

/-- Python subscript `v[k]` with a string key: `KeyError` when the key is
absent, `TypeError` when `v` is not a mapping. -/
def JValue.getKey : JValue → String → Except String JValue
  | .jobj fs, k =>
      match dlookup fs k with
      | some v => .ok v
      | none => .error ("KeyError: " ++ k)
  | _, k => .error ("TypeError: value has no key " ++ k)

/-- Python `.keys()` / `.items()`: requires a mapping. -/
def JValue.asObj : JValue → Except String (List (String × JValue))
  | .jobj fs => .ok fs
  | _ => .error "AttributeError: items"

/-- Reading an unset instance attribute raises `AttributeError`. -/
def attr {α : Type} (o : Option α) (name : String) : Except String α :=
  match o with
  | some a => .ok a
  | none => .error ("AttributeError: " ++ name)

/-! ## Python string predicates (on code-point lists, like Python `str`) -/

def pyStartsWith (s pre : String) : Bool := pre.data.isPrefixOf s.data

def pyEndsWith (s suf : String) : Bool := suf.data.isSuffixOf s.data

def listContainsSub (pat : List Char) : List Char → Bool
  | [] => pat.isEmpty
  | c :: rest => pat.isPrefixOf (c :: rest) || listContainsSub pat rest

/-- Python `pat in s` (substring containment). -/
def pyContains (s pat : String) : Bool := listContainsSub pat.data s.data

/-- Scan for an occurrence of `Code` that is not preceded by a newline
(the `.` of Python regexes does not match a newline). -/
def containsCodeNoNL : List Char → Bool
  | [] => false
  | c :: rest =>
      ("Code".data.isPrefixOf (c :: rest)) ||
      (if c = '\n' then false else containsCodeNoNL rest)

/-- Python `re.match("mppt.*Code", key)` is truthy: the key starts with
`mppt` and `Code` occurs after that prefix, with no intervening newline.
Trailing characters after `Code` are allowed (`re.match` only anchors at
the start). -/
def mpptCodeMatch (key : String) : Bool :=
  "mppt".data.isPrefixOf key.data && containsCodeNoNL (key.data.drop 4)

/-! ## Unit and description lookups (`__get_unit`, `__get_description`) -/

def get_unit (key : String) : Option String :=
  if pyEndsWith key "pwr" || pyEndsWith key "Pwr" || pyEndsWith key "Power" then
    some "W"
  else if pyEndsWith key "amp" || pyEndsWith key "Amp" then
    some "A"
  else if pyEndsWith key "soc" || pyEndsWith key "Soc" ||
          pyEndsWith key "soh" || pyEndsWith key "Soh" then
    some "%"
  else if pyEndsWith key "vol" || pyEndsWith key "Vol" then
    some "V"
  else if pyEndsWith key "Watth" || pyEndsWith key "Energy" then
    some "Wh"
  else if pyContains key "Generation" then
    some "kWh"
  else if pyStartsWith key "bpTemp" then
    some "°C"
  else
    none

def get_description (key : String) : String :=
  if key = "sysLoadPwr" then "Hausnetz"
  else if key = "sysGridPwr" then "Stromnetz"
  else if key = "mpptPwr" then "Solarertrag"
  else if key = "bpPwr" then "Batterieleistung"
  else if key = "bpSoc" then "Ladezustand der Batterie"
  else if key = "online" then "Online"
  else if key = "systemName" then "System Name"
  else if key = "createTime" then "Installations Datum"
  else if key = "bpVol" then "Batteriespannung"
  else if key = "bpAmp" then "Batteriestrom"
  else if key = "bpCycles" then "Ladezyklen"
  else if key = "bpTemp" then "Temperatur der Batteriezellen"
  else key

/-! ## JSON parsing (`json_loads` applied to embedded battery-pack strings) -/

def isJsonWs (c : Char) : Bool := c = ' ' || c = '\t' || c = '\n' || c = '\r'

def skipWs (cs : List Char) : List Char := cs.dropWhile isJsonWs

def isDigitCh (c : Char) : Bool := '0' ≤ c && c ≤ '9'

def hexVal (c : Char) : Option Nat :=
  if '0' ≤ c && c ≤ '9' then some (c.toNat - 48)
  else if 'a' ≤ c && c ≤ 'f' then some (c.toNat - 87)
  else if 'A' ≤ c && c ≤ 'F' then some (c.toNat - 55)
  else none

def parseStrBody (fuel : Nat) (cs : List Char) :
    Except String (List Char × List Char) :=
  match fuel with
  | 0 => .error "json: out of fuel"
  | fuel + 1 =>
    match cs with
    | [] => .error "json: unterminated string"
    | '"' :: rest => .ok ([], rest)
    | '\\' :: rest =>
      match rest with
      | [] => .error "json: unterminated string"
      | 'u' :: h1 :: h2 :: h3 :: h4 :: rest2 =>
          match hexVal h1, hexVal h2, hexVal h3, hexVal h4 with
          | some a, some b, some c, some d => do
              let (body, rem) ← parseStrBody fuel rest2
              .ok (Char.ofNat (((a * 16 + b) * 16 + c) * 16 + d) :: body, rem)
          | _, _, _, _ => .error "json: invalid hex escape"
      | e :: rest2 =>
          let esc : Option Char :=
            if e = '"' then some '"'
            else if e = '\\' then some '\\'
            else if e = '/' then some '/'
            else if e = 'b' then some (Char.ofNat 8)
            else if e = 'f' then some (Char.ofNat 12)
            else if e = 'n' then some '\n'
            else if e = 'r' then some (Char.ofNat 13)
            else if e = 't' then some '\t'
            else none
          match esc with
          | some c => do
              let (body, rem) ← parseStrBody fuel rest2
              .ok (c :: body, rem)
          | none => .error "json: invalid escape"
    | c :: rest =>
      if c.toNat < 32 then .error "json: invalid control character"
      else do
        let (body, rem) ← parseStrBody fuel rest
        .ok (c :: body, rem)

def digitsToNat (acc : Nat) : List Char → Nat
  | [] => acc
  | c :: rest => digitsToNat (acc * 10 + (c.toNat - 48)) rest

/-- JSON number: optional minus, integer part, optional fraction, optional
exponent; evaluated exactly as a rational. -/
def parseNumber (cs : List Char) : Except String (Rat × List Char) :=
  let (neg, cs1) :=
    match cs with
    | '-' :: rest => (true, rest)
    | _ => (false, cs)
  let intDigits := cs1.takeWhile isDigitCh
  let cs2 := cs1.dropWhile isDigitCh
  match intDigits with
  | [] => .error "json: expecting value"
  | _ =>
    let (fracDigits, cs3) :=
      match cs2 with
      | '.' :: rest => (rest.takeWhile isDigitCh, rest.dropWhile isDigitCh)
      | _ => ([], cs2)
    if cs2 ≠ cs3 && fracDigits = [] then .error "json: expecting digits"
    else
      let (hasExp, expNeg, expDigits, cs4) :=
        match cs3 with
        | 'e' :: '-' :: rest => (true, true, rest.takeWhile isDigitCh, rest.dropWhile isDigitCh)
        | 'e' :: '+' :: rest => (true, false, rest.takeWhile isDigitCh, rest.dropWhile isDigitCh)
        | 'e' :: rest => (true, false, rest.takeWhile isDigitCh, rest.dropWhile isDigitCh)
        | 'E' :: '-' :: rest => (true, true, rest.takeWhile isDigitCh, rest.dropWhile isDigitCh)
        | 'E' :: '+' :: rest => (true, false, rest.takeWhile isDigitCh, rest.dropWhile isDigitCh)
        | 'E' :: rest => (true, false, rest.takeWhile isDigitCh, rest.dropWhile isDigitCh)
        | _ => (false, false, [], cs3)
      if hasExp && expDigits = [] then .error "json: expecting digits"
      else
        let mant : Nat := digitsToNat (digitsToNat 0 intDigits) fracDigits
        let signed : Int := if neg then - (mant : Int) else (mant : Int)
        let k : Nat := fracDigits.length
        let e : Int := if expNeg then - (digitsToNat 0 expDigits : Int)
                       else (digitsToNat 0 expDigits : Int)
        if fracDigits = [] && ¬ hasExp then
          .ok ((signed : Rat), cs4)
        else
          .ok ((signed : Rat) / ((10 : Rat) ^ k) * ((10 : Rat) ^ e), cs4)

mutual

def parseVal (fuel : Nat) (cs : List Char) :
    Except String (JValue × List Char) :=
  match fuel with
  | 0 => .error "json: out of fuel"
  | fuel + 1 =>
    match skipWs cs with
    | [] => .error "json: expecting value"
    | '{' :: rest => parseObjFields fuel rest [] true
    | '[' :: rest => parseArrElems fuel rest [] true
    | '"' :: rest => do
        let (body, rem) ← parseStrBody fuel rest
        .ok (.jstr (String.mk body), rem)
    | 't' :: 'r' :: 'u' :: 'e' :: rest => .ok (.jbool true, rest)
    | 'f' :: 'a' :: 'l' :: 's' :: 'e' :: rest => .ok (.jbool false, rest)
    | 'n' :: 'u' :: 'l' :: 'l' :: rest => .ok (.jnull, rest)
    | c :: rest =>
        if c = '-' || isDigitCh c then do
          let (q, rem) ← parseNumber (c :: rest)
          .ok (.jnum q, rem)
        else .error "json: expecting value"

def parseObjFields (fuel : Nat) (cs : List Char)
    (acc : List (String × JValue)) (first : Bool) :
    Except String (JValue × List Char) :=
  match fuel with
  | 0 => .error "json: out of fuel"
  | fuel + 1 =>
    match skipWs cs with
    | '}' :: rest =>
        if first then .ok (.jobj acc, rest)
        else .error "json: expecting property name"
    | '"' :: rest => do
        let (kbody, rem1) ← parseStrBody fuel rest
        match skipWs rem1 with
        | ':' :: rem2 => do
            let (v, rem3) ← parseVal fuel rem2
            let acc := dinsert acc (String.mk kbody) v
            match skipWs rem3 with
            | ',' :: rem4 => parseObjMore fuel rem4 acc
            | '}' :: rem4 => .ok (.jobj acc, rem4)
            | _ => .error "json: expecting comma"
        | _ => .error "json: expecting colon"
    | _ => .error "json: expecting property name"

def parseObjMore (fuel : Nat) (cs : List Char)
    (acc : List (String × JValue)) : Except String (JValue × List Char) :=
  match fuel with
  | 0 => .error "json: out of fuel"
  | fuel + 1 => parseObjFields fuel cs acc false

def parseArrElems (fuel : Nat) (cs : List Char) (acc : List JValue)
    (first : Bool) : Except String (JValue × List Char) :=
  match fuel with
  | 0 => .error "json: out of fuel"
  | fuel + 1 =>
    match skipWs cs with
    | ']' :: rest =>
        if first then .ok (.jarr acc.reverse, rest)
        else .error "json: expecting value"
    | _ => do
        let (v, rem) ← parseVal fuel (skipWs cs)
        match skipWs rem with
        | ',' :: rem2 => parseArrElems fuel rem2 (v :: acc) false
        | ']' :: rem2 => .ok (.jarr (v :: acc).reverse, rem2)
        | _ => .error "json: expecting comma"

end

/-- `json_loads` applied to an embedded JSON string (strict decoding: any
trailing non-whitespace is an error). -/
def json_loads (s : String) : Except String JValue := do
  let (v, rest) ← parseVal (s.data.length + 1) s.data
  match skipWs rest with
  | [] => .ok v
  | _ => .error "json: extra data"

/-! ## The measurement record (`PowerOceanEndPoint` namedtuple) -/

structure PowerOceanEndPoint where
  internal_unique_id : String
  serial : String
  name : String
  friendly_name : String
  value : JValue
  unit : Option String
  description : String
  icon : Option String

/-- The sensor map handed back to the platform: ordered dict keyed by
`internal_unique_id`. -/
abbrev SensorMap := List (String × PowerOceanEndPoint)

/-! ## Root extractor (`__get_sensors_data`) -/

def sens_select_data : List String :=
  ["sysLoadPwr", "sysGridPwr", "mpptPwr", "bpPwr", "online",
   "todayElectricityGeneration", "monthElectricityGeneration",
   "yearElectricityGeneration", "totalElectricityGeneration",
   "systemName", "createTime"]

def data_uid (sn key : String) : String := sn ++ "_" ++ key

def data_record (sn key : String) (value : JValue) : PowerOceanEndPoint :=
  { internal_unique_id := data_uid sn key
    serial := sn
    name := sn ++ "_" ++ key
    friendly_name := key
    value := value
    unit := get_unit key
    description := get_description key
    icon := if key = "mpptPwr" then some "mdi:solar-power" else none }

def dataFold (sn : String) : List (String × JValue) → SensorMap → SensorMap
  | [], sensors => sensors
  | (key, value) :: rest, sensors =>
      dataFold sn rest
        (if sens_select_data.contains key && !value.isObj then
          dinsert sensors (data_uid sn key) (data_record sn key value)
        else sensors)

def get_sensors_data (sn : String) (response : JValue) :
    Except String SensorMap :=
  match response.getKey "data" with
  | .error e => .error e
  | .ok d =>
    match d.asObj with
    | .error e => .error e
    | .ok fields => .ok (dataFold sn fields [])

/-! ## Change-report extractor (`__get_sensors_ems_change`) -/

def ems_change_select : List String :=
  ["bpTotalChgEnergy", "bpTotalDsgEnergy", "bpSoc", "bpOnlineSum",
   "emsCtrlLedBright", "emsWordMode"]

def ems_uid (inverter_sn key : String) : String :=
  inverter_sn ++ "_JTS1_EMS_CHANGE_REPORT_" ++ key

def ems_change_record (inverter_sn inverter_string key : String)
    (value : JValue) : PowerOceanEndPoint :=
  { internal_unique_id := ems_uid inverter_sn key
    serial := inverter_sn
    name := inverter_sn ++ "_" ++ key
    friendly_name := key ++ inverter_string
    value := value
    unit := get_unit key
    description := get_description key
    icon := none }

def emsChangeFold (inverter_sn inverter_string : String)
    (sens_select : List String) :
    List (String × JValue) → SensorMap → SensorMap
  | [], data => data
  | (key, value) :: rest, data =>
      emsChangeFold inverter_sn inverter_string sens_select rest
        (if sens_select.contains key then
          dinsert data (ems_uid inverter_sn key)
            (ems_change_record inverter_sn inverter_string key value)
        else data)

def get_sensors_ems_change (inverter_dataset : JValue) (sensors : SensorMap)
    (inverter_sn inverter_string : String) : Except String SensorMap :=
  match inverter_dataset.getKey "JTS1_EMS_CHANGE_REPORT" with
  | .error e => .error e
  | .ok d =>
    match d.asObj with
    | .error e => .error e
    | .ok fields =>
      let sens_select :=
        ems_change_select ++ (fields.map Prod.fst).filter mpptCodeMatch
      .ok (dupdate sensors
        (emsChangeFold inverter_sn inverter_string sens_select fields []))

/-! ## Battery-pack extractor (`__get_sensors_battery`) -/

def bat_sens_select : List String :=
  ["bpPwr", "bpSoc", "bpSoh", "bpVol", "bpAmp", "bpCycles",
   "bpSysState", "bpRemainWatth"]

def bp_uid (inverter_sn bat key : String) : String :=
  inverter_sn ++ "_JTS1_BP_STA_REPORT_" ++ bat ++ "_" ++ key

def battery_record (inverter_sn inverter_string name bat key : String)
    (value : JValue) : PowerOceanEndPoint :=
  { internal_unique_id := bp_uid inverter_sn bat key
    serial := inverter_sn
    name := inverter_sn ++ "_" ++ name ++ key
    friendly_name := name ++ key ++ inverter_string
    value := value
    unit := get_unit key
    description := name ++ get_description key
    icon := if key = "bpAmp" then some "mdi:current-dc" else none }

def batPackFold (inverter_sn inverter_string name bat : String) :
    List (String × JValue) → SensorMap → SensorMap
  | [], data => data
  | (key, value) :: rest, data =>
      batPackFold inverter_sn inverter_string name bat rest
        (if bat_sens_select.contains key then
          dinsert data (bp_uid inverter_sn bat key)
            (battery_record inverter_sn inverter_string name bat key value)
        else data)

/-- Python numeric coercion for `+` / `sum` (bools count as 0/1; anything
non-numeric raises `TypeError`). -/
def pyNum : JValue → Except String Rat
  | .jnum q => .ok q
  | .jbool b => .ok (if b then 1 else 0)
  | _ => .error "TypeError: unsupported operand type"

def ratListOf : List JValue → Except String (List Rat)
  | [] => .ok []
  | v :: rest =>
    match pyNum v with
    | .error e => .error e
    | .ok q =>
      match ratListOf rest with
      | .error e => .error e
      | .ok qs => .ok (q :: qs)

/-- Python `sum(temp)` and `len(temp)` demand an iterable of numbers. -/
def toRatList : JValue → Except String (List Rat)
  | .jarr xs => ratListOf xs
  | _ => .error "TypeError: object is not a list"

def batteryPack (inverter_sn inverter_string : String) (ibat : Nat)
    (bat : String) (payload : JValue) (data : SensorMap) :
    Except String SensorMap :=
  let name := "bpack" ++ toString (ibat + 1) ++ "_"
  match payload with
  | .jstr s =>
    match json_loads s with
    | .error e => .error e
    | .ok d_bat =>
      match d_bat.asObj with
      | .error e => .error e
      | .ok pfs =>
        let data := batPackFold inverter_sn inverter_string name bat pfs data
        match dlookup pfs "bpTemp" with
        | none => .error "KeyError: bpTemp"
        | some temp =>
          match toRatList temp with
          | .error e => .error e
          | .ok temps =>
            if temps.length = 0 then .error "ZeroDivisionError: division by zero"
            else
              .ok (dinsert data (bp_uid inverter_sn bat "bpTemp")
                (battery_record inverter_sn inverter_string name bat "bpTemp"
                  (.jnum (temps.sum / (temps.length : Rat)))))
  | _ => .error "TypeError: json_loads expects a string"

def batLoop (inverter_sn inverter_string : String)
    (bfs : List (String × JValue)) :
    List String → Nat → SensorMap → Except String SensorMap
  | [], _, data => .ok data
  | bat :: rest, ibat, data =>
    match dlookup bfs bat with
    | none => .error ("KeyError: " ++ bat)
    | some payload =>
      match batteryPack inverter_sn inverter_string ibat bat payload data with
      | .error e => .error e
      | .ok data' => batLoop inverter_sn inverter_string bfs rest (ibat + 1) data'

def get_sensors_battery (inverter_data : JValue) (sensors : SensorMap)
    (inverter_sn inverter_string : String) : Except String SensorMap :=
  match inverter_data.getKey "JTS1_BP_STA_REPORT" with
  | .error e => .error e
  | .ok d =>
    match d.asObj with
    | .error e => .error e
    | .ok bfs =>
      let batts := (bfs.map Prod.fst).filter (fun s => 12 < s.length)
      match batLoop inverter_sn inverter_string bfs batts 0 [] with
      | .error e => .error e
      | .ok data => .ok (dupdate sensors data)

/-! ## Heartbeat extractor (`__get_sensors_ems_heartbeat`) -/

def hb_sens_select : List String :=
  ["bpRemainWatth", "emsBpAliveNum", "emsBpPower", "pcsActPwr",
   "pcsMeterPower"]

def phases : List String := ["pcsAPhase", "pcsBPhase", "pcsCPhase"]

def hb_uid (inverter_sn key : String) : String :=
  inverter_sn ++ "_JTS1_EMS_HEARTBEAT_" ++ key

def hb_record (inverter_sn inverter_string key : String) (value : JValue) :
    PowerOceanEndPoint :=
  { internal_unique_id := hb_uid inverter_sn key
    serial := inverter_sn
    name := inverter_sn ++ "_" ++ key
    friendly_name := key ++ inverter_string
    value := value
    unit := get_unit key
    description := get_description key
    icon := none }

def phase_record (inverter_sn inverter_string phase key : String)
    (value : JValue) : PowerOceanEndPoint :=
  { internal_unique_id := hb_uid inverter_sn (phase ++ "_" ++ key)
    serial := inverter_sn
    name := inverter_sn ++ "_" ++ (phase ++ "_" ++ key)
    friendly_name := phase ++ "_" ++ key ++ inverter_string
    value := value
    unit := get_unit key
    description := get_description key
    icon := none }

/-- One per-PV-string record.  Note the `serial` field: the source passes
`self.sn` here (the instance's own configured serial), not `inverter_sn`. -/
def mppt_record (self_sn inverter_sn inverter_string mpptpv key : String)
    (value : JValue) : PowerOceanEndPoint :=
  { internal_unique_id :=
      hb_uid inverter_sn ("mpptHeartBeat_" ++ mpptpv ++ "_" ++ key)
    serial := self_sn
    name := inverter_sn ++ "_" ++ mpptpv ++ "_" ++ key
    friendly_name := mpptpv ++ "_" ++ key ++ inverter_string
    value := value
    unit := get_unit key
    description := get_description key
    icon :=
      if pyEndsWith key "pwr" then some "mdi:solar-power"
      else if pyEndsWith key "amp" then some "mdi:current-dc"
      else none }

/-- The aggregate PV-power record; `lastKey` is the leftover loop variable
`key` whose unit the source looks up for this sensor. -/
def pwrTotal_record (inverter_sn inverter_string lastKey : String)
    (total : Rat) : PowerOceanEndPoint :=
  { internal_unique_id := hb_uid inverter_sn "mpptHeartBeat_mpptPv_pwrTotal"
    serial := inverter_sn
    name := inverter_sn ++ "_" ++ "mpptPv_pwrTotal"
    friendly_name := "mpptPv_pwrTotal" ++ inverter_string
    value := .jnum total
    unit := get_unit lastKey
    description := "Solarertrag aller Strings"
    icon := some "mdi:solar-power" }

def hbScalarFold (inverter_sn inverter_string : String) :
    List (String × JValue) → SensorMap → Option String →
    SensorMap × Option String
  | [], data, lk => (data, lk)
  | (key, value) :: rest, data, _ =>
      hbScalarFold inverter_sn inverter_string rest
        (if hb_sens_select.contains key then
          dinsert data (hb_uid inverter_sn key)
            (hb_record inverter_sn inverter_string key value)
        else data)
        (some key)

def phaseFold (inverter_sn inverter_string phase : String) :
    List (String × JValue) → SensorMap → Option String →
    SensorMap × Option String
  | [], data, lk => (data, lk)
  | (key, value) :: rest, data, _ =>
      phaseFold inverter_sn inverter_string phase rest
        (dinsert data (hb_uid inverter_sn (phase ++ "_" ++ key))
          (phase_record inverter_sn inverter_string phase key value))
        (some key)

def phaseLoop (inverter_sn inverter_string : String)
    (hfs : List (String × JValue)) :
    List String → SensorMap → Option String →
    Except String (SensorMap × Option String)
  | [], data, lk => .ok (data, lk)
  | phase :: rest, data, lk =>
    match dlookup hfs phase with
    | none => .error ("KeyError: " ++ phase)
    | some v =>
      match v.asObj with
      | .error e => .error e
      | .ok pf =>
        match phaseFold inverter_sn inverter_string phase pf data lk with
        | (data', lk') => phaseLoop inverter_sn inverter_string hfs rest data' lk'

def mpptFieldFold (self_sn inverter_sn inverter_string mpptpv : String) :
    List (String × JValue) → SensorMap → Option String → Rat →
    Except String (SensorMap × Option String × Rat)
  | [], data, lk, s => .ok (data, lk, s)
  | (key, value) :: rest, data, _, s =>
    let data' :=
      dinsert data (hb_uid inverter_sn ("mpptHeartBeat_" ++ mpptpv ++ "_" ++ key))
        (mppt_record self_sn inverter_sn inverter_string mpptpv key value)
    if key = "pwr" then
      match pyNum value with
      | .error e => .error e
      | .ok q =>
          mpptFieldFold self_sn inverter_sn inverter_string mpptpv rest
            data' (some key) (s + q)
    else
      mpptFieldFold self_sn inverter_sn inverter_string mpptpv rest
        data' (some key) s

def mpptLoop (self_sn inverter_sn inverter_string : String) :
    List JValue → Nat → SensorMap → Option String → Rat →
    Except String (SensorMap × Option String × Rat)
  | [], _, data, lk, s => .ok (data, lk, s)
  | el :: rest, i, data, lk, s =>
    match el.asObj with
    | .error e => .error e
    | .ok pf =>
      match mpptFieldFold self_sn inverter_sn inverter_string
          ("mpptPv" ++ toString (i + 1)) pf data lk s with
      | .error e => .error e
      | .ok (data', lk', s') =>
          mpptLoop self_sn inverter_sn inverter_string rest (i + 1) data' lk' s'

/-- Python `x[0]` on an arbitrary value. -/
def index0 : JValue → Except String JValue
  | .jarr [] => .error "IndexError: list index out of range"
  | .jarr (x :: _) => .ok x
  | .jobj _ => .error "KeyError: 0"
  | .jstr s =>
    match s.data with
    | [] => .error "IndexError: string index out of range"
    | c :: _ => .ok (.jstr (String.mk [c]))
  | _ => .error "TypeError: object is not subscriptable"

/-- `len(...)` / indexed iteration over `mpptPv`: only a list iterates as
the source expects; an empty dict or string also yields zero strings. -/
def mpvElems : JValue → Except String (List JValue)
  | .jarr xs => .ok xs
  | .jobj fs => if fs.isEmpty then .ok [] else .error "KeyError: 0"
  | .jstr s => if s.data.isEmpty then .ok [] else .error "AttributeError: items"
  | _ => .error "TypeError: object has no len"

def get_sensors_ems_heartbeat (self_sn : String) (inverter_data : JValue)
    (sensors : SensorMap) (inverter_sn inverter_string : String) :
    Except String SensorMap :=
  match inverter_data.getKey "JTS1_EMS_HEARTBEAT" with
  | .error e => .error e
  | .ok d =>
    match d.asObj with
    | .error e => .error e
    | .ok hfs =>
      match hbScalarFold inverter_sn inverter_string hfs [] none with
      | (data, lastKey) =>
        match phaseLoop inverter_sn inverter_string hfs phases data lastKey with
        | .error e => .error e
        | .ok (data, lastKey) =>
          match d.getKey "mpptHeartBeat" with
          | .error e => .error e
          | .ok hb =>
            match index0 hb with
            | .error e => .error e
            | .ok el0 =>
              match el0.getKey "mpptPv" with
              | .error e => .error e
              | .ok mpv =>
                match mpvElems mpv with
                | .error e => .error e
                | .ok xs =>
                  match mpptLoop self_sn inverter_sn inverter_string xs 0
                      data lastKey 0 with
                  | .error e => .error e
                  | .ok (data, lastKey, total) =>
                    match lastKey with
                    | none => .error "NameError: name key is not defined"
                    | some lk =>
                      .ok (dupdate sensors
                        (dinsert data
                          (hb_uid inverter_sn "mpptHeartBeat_mpptPv_pwrTotal")
                          (pwrTotal_record inverter_sn inverter_string lk total)))

/-! ## Topology resolver (`_get_serial_numbers`, Jan 2025 revision) -/

/-- The instance attributes `_get_serial_numbers` assigns; attributes it
leaves unset stay `none`. -/
structure EcoState where
  first_sn : Option String := none
  second_sn : Option String := none
  master_sn : Option String := none
  slave_sn : Option String := none
  master_data : Option JValue := none
  slave_data : Option JValue := none

/-- `_get_serial_numbers`.  The debug logging at the top of the function
performs unconditional lookups: `response["data"]`, `...["quota"]`,
`...["parallel"]`, and the two serials `J32EZEH4ZG3S0104` /
`J32EZEH4ZG3S0042` hardcoded in the source; any of these failing raises
before the `'parallel' in p_data.keys()` test is reached. -/
def get_serial_numbers (sn : String) (response : JValue) :
    Except String (EcoState × Nat) :=
  match response.asObj with
  | .error e => .error e
  | .ok _ =>
    match response.getKey "data" with
    | .error e => .error e
    | .ok p_data =>
      match p_data.asObj with
      | .error e => .error e
      | .ok dfs =>
        match p_data.getKey "quota" with
        | .error e => .error e
        | .ok _ =>
          match p_data.getKey "parallel" with
          | .error e => .error e
          | .ok par =>
            match par.asObj with
            | .error e => .error e
            | .ok pfs =>
              match par.getKey "J32EZEH4ZG3S0104" with
              | .error e => .error e
              | .ok _ =>
                match par.getKey "J32EZEH4ZG3S0042" with
                | .error e => .error e
                | .ok _ =>
                  if (dlookup dfs "parallel").isSome then
                    match (pfs.map Prod.fst).head? with
                    | none => .error "StopIteration"
                    | some first_sn =>
                      match (pfs.map Prod.fst).getLast? with
                      | none => .error "StopIteration"
                      | some second_sn =>
                        if first_sn = sn then
                          match par.getKey first_sn with
                          | .error e => .error e
                          | .ok md =>
                            match par.getKey second_sn with
                            | .error e => .error e
                            | .ok sd =>
                              .ok ({ first_sn := some first_sn,
                                     second_sn := some second_sn,
                                     master_sn := some first_sn,
                                     slave_sn := some second_sn,
                                     master_data := some md,
                                     slave_data := some sd }, pfs.length)
                        else
                          match par.getKey second_sn with
                          | .error e => .error e
                          | .ok md =>
                            match par.getKey first_sn with
                            | .error e => .error e
                            | .ok sd =>
                              .ok ({ first_sn := some first_sn,
                                     second_sn := some second_sn,
                                     master_sn := some second_sn,
                                     slave_sn := some first_sn,
                                     master_data := some md,
                                     slave_data := some sd }, pfs.length)
                  else
                    match p_data.getKey "quota" with
                    | .error e => .error e
                    | .ok quota => .ok ({ master_data := some quota }, 0)

/-! ## Normalization entry point (`_get_sensors`) -/

/-- `_get_sensors`: `.ok none` models the explicit `return` (abort) for an
unsupported topology; `.error` models an uncaught Python exception. -/
def get_sensors (sn : String) (response : JValue) :
    Except String (Option SensorMap) :=
  match get_serial_numbers sn response with
  | .error e => .error e
  | .ok (st, serials) =>
    match (if serials = 2 then some "_master"
           else if serials = 0 then some "" else none) with
    | none => .ok none
    | some master_string =>
      match get_sensors_data sn response with
      | .error e => .error e
      | .ok sensors =>
        match attr st.master_data "master_data" with
        | .error e => .error e
        | .ok master_data =>
          match attr st.master_sn "master_sn" with
          | .error e => .error e
          | .ok master_sn =>
            match get_sensors_ems_change master_data sensors master_sn
                master_string with
            | .error e => .error e
            | .ok sensors =>
              match get_sensors_battery master_data sensors master_sn
                  master_string with
              | .error e => .error e
              | .ok sensors =>
                match get_sensors_ems_heartbeat sn master_data sensors
                    master_sn master_string with
                | .error e => .error e
                | .ok sensors =>
                  if serials = 2 then
                    match attr st.slave_data "slave_data" with
                    | .error e => .error e
                    | .ok slave_data =>
                      match attr st.slave_sn "slave_sn" with
                      | .error e => .error e
                      | .ok slave_sn =>
                        match get_sensors_ems_change slave_data sensors
                            slave_sn "_slave" with
                        | .error e => .error e
                        | .ok sensors =>
                          match get_sensors_battery slave_data sensors
                              slave_sn "_slave" with
                          | .error e => .error e
                          | .ok sensors =>
                            match get_sensors_ems_heartbeat sn slave_data
                                sensors slave_sn "_slave" with
                            | .error e => .error e
                            | .ok sensors => .ok (some sensors)
                  else .ok (some sensors)

/-! ## Lemmas about the ordered-dict operations -/


/-! ## Fixtures and auxiliary statement-level definitions -/

def keysNodup {α : Type} (m : List (String × α)) : Prop :=
  (m.map Prod.fst).Nodup

/-- A well-formed per-inverter report tree with one battery pack (payload
an embedded JSON string) and two PV strings. -/
def reportTree : JValue := .jobj [
  ("JTS1_EMS_CHANGE_REPORT", .jobj [("bpSoc", .jnum 55), ("mpptHwWarnCode", .jnum 0)]),
  ("JTS1_BP_STA_REPORT", .jobj [
    ("HJ32ZDH4HF7J0001", .jstr "\x7b\"bpPwr\": 10, \"bpTemp\": [20, 22, 24]\x7d")]),
  ("JTS1_EMS_HEARTBEAT", .jobj [
    ("pcsActPwr", .jnum 7),
    ("pcsAPhase", .jobj [("actPwr", .jnum 1)]),
    ("pcsBPhase", .jobj []),
    ("pcsCPhase", .jobj []),
    ("mpptHeartBeat", .jarr [.jobj [("mpptPv", .jarr [
        .jobj [("pwr", .jnum 100), ("vol", .jnum 30)],
        .jobj [("pwr", .jnum 150)]])]])])]

/-- Dual-inverter response using the serials hardcoded in the source. -/
def dualResponse : JValue := .jobj [
  ("code", .jstr "0"),
  ("data", .jobj [
    ("sysLoadPwr", .jnum 300),
    ("systemName", .jstr "PowerOcean"),
    ("quota", .jobj []),
    ("parallel", .jobj [
      ("J32EZEH4ZG3S0104", reportTree),
      ("J32EZEH4ZG3S0042", reportTree)])])]

/-- Dual-inverter response whose two parallel keys are generic serials. -/
def genericDualResponse : JValue := .jobj [
  ("data", .jobj [
    ("quota", .jobj []),
    ("parallel", .jobj [
      ("SNMASTER001A0042", reportTree),
      ("SNSLAVE0002A0042", reportTree)])])]

/-- Single-inverter response: a `quota` tree, no `parallel` key. -/
def singleResponse : JValue := .jobj [
  ("data", .jobj [
    ("sysLoadPwr", .jnum 300),
    ("quota", reportTree)])]

/-- Parallel mapping with exactly one key. -/
def oneKeyResponse : JValue := .jobj [
  ("data", .jobj [
    ("quota", .jobj []),
    ("parallel", .jobj [("J32EZEH4ZG3S0104", reportTree)])])]

/-- Parallel mapping with three keys (the two hardcoded ones plus one). -/
def threeKeyResponse : JValue := .jobj [
  ("data", .jobj [
    ("quota", .jobj []),
    ("parallel", .jobj [
      ("J32EZEH4ZG3S0104", reportTree),
      ("J32EZEH4ZG3S0042", reportTree),
      ("J32EZEH4ZG3S0077", reportTree)])])]

/-! ## Fixtures and closed theorems for claims C4 and C5 -/

def heartbeatFields : List (String × JValue) :=
  [("pcsActPwr", .jnum 7),
   ("pcsAPhase", .jobj [("actPwr", .jnum 1)]),
   ("pcsBPhase", .jobj []),
   ("pcsCPhase", .jobj []),
   ("mpptHeartBeat", .jarr [.jobj [("mpptPv", .jarr [
       .jobj [("pwr", .jnum 100), ("vol", .jnum 30)],
       .jobj [("pwr", .jnum 150)]])]])]

/-- Master report root with `JTS1_EMS_CHANGE_REPORT` absent. -/
def mfsNoChange : List (String × JValue) :=
  [("JTS1_BP_STA_REPORT", .jobj [
     ("HJ32ZDH4HF7J0001", .jstr "\x7b\"bpPwr\": 10, \"bpTemp\": [20, 22, 24]\x7d")]),
   ("JTS1_EMS_HEARTBEAT", .jobj heartbeatFields)]

def treeNoChange : JValue := .jobj mfsNoChange

def missingChangeResponse : JValue := .jobj [
  ("data", .jobj [
    ("quota", .jobj []),
    ("parallel", .jobj [
      ("J32EZEH4ZG3S0104", treeNoChange),
      ("J32EZEH4ZG3S0042", reportTree)])])]

def stMissingChange : EcoState :=
  { first_sn := some "J32EZEH4ZG3S0104", second_sn := some "J32EZEH4ZG3S0042",
    master_sn := some "J32EZEH4ZG3S0104", slave_sn := some "J32EZEH4ZG3S0042",
    master_data := some treeNoChange, slave_data := some reportTree }

def s0MissingChange : SensorMap :=
  match get_sensors_data "J32EZEH4ZG3S0104" missingChangeResponse with
  | .ok m => m
  | .error _ => []

/-- Pack fields for the bad-pack master root: the first recognized pack's
payload is not decodable JSON, the second is fine. -/
def bfsBadPack : List (String × JValue) :=
  [("BADPACKSERIAL0001", .jstr "not json"),
   ("HJ32ZDH4HF7J0001", .jstr "\x7b\"bpPwr\": 10, \"bpTemp\": [20, 22, 24]\x7d")]

def mfsBadPack : List (String × JValue) :=
  [("JTS1_EMS_CHANGE_REPORT", .jobj [("bpSoc", .jnum 55)]),
   ("JTS1_BP_STA_REPORT", .jobj bfsBadPack),
   ("JTS1_EMS_HEARTBEAT", .jobj heartbeatFields)]

def badPackResponse : JValue := .jobj [
  ("data", .jobj [
    ("quota", .jobj []),
    ("parallel", .jobj [
      ("J32EZEH4ZG3S0104", .jobj mfsBadPack),
      ("J32EZEH4ZG3S0042", reportTree)])])]

def stBadPack : EcoState :=
  { first_sn := some "J32EZEH4ZG3S0104", second_sn := some "J32EZEH4ZG3S0042",
    master_sn := some "J32EZEH4ZG3S0104", slave_sn := some "J32EZEH4ZG3S0042",
    master_data := some (.jobj mfsBadPack), slave_data := some reportTree }

def s0BadPack : SensorMap :=
  match get_sensors_data "J32EZEH4ZG3S0104" badPackResponse with
  | .ok m => m
  | .error _ => []

def s1BadPack : SensorMap :=
  match get_sensors_ems_change (.jobj mfsBadPack) s0BadPack
      "J32EZEH4ZG3S0104" "_master" with
  | .ok m => m
  | .error _ => []

def pvFieldsFix : List (List (String × JValue)) :=
  [[("pwr", .jnum 100), ("vol", .jnum 30)], [("pwr", .jnum 150)]]

def mHeartbeatFix : SensorMap :=
  match get_sensors_ems_heartbeat "SNSELF0001"
      (.jobj [("JTS1_EMS_HEARTBEAT", .jobj heartbeatFields)]) [] "SNINV00001" "" with
  | .ok m => m
  | .error _ => []

def packPayload : String := "\x7b\"bpPwr\": 10, \"bpTemp\": [20, 22, 24]\x7d"

def bfs7 : List (String × JValue) := [("HJ32ZDH4HF7J0001", .jstr packPayload)]

def dfs7 : List (String × JValue) := [("JTS1_BP_STA_REPORT", .jobj bfs7)]

def pfs7 : List (String × JValue) :=
  match json_loads packPayload with
  | .ok (.jobj l) => l
  | _ => []

def mBatteryFix : SensorMap :=
  match get_sensors_battery (.jobj dfs7) [] "SN1" "" with
  | .ok m => m
  | .error _ => []

/-- A record's serial is correctly attributed to its inverter, except that a
per-PV-string record (friendly name starting with `mpptPv`) may instead carry
the instance's own configured serial. -/
def serialOk (self_sn inv_sn : String) (e : String × PowerOceanEndPoint) : Prop :=
  e.2.serial = inv_sn ∨
    (e.2.serial = self_sn ∧ pyStartsWith e.2.friendly_name "mpptPv" = true)

def mDualFix : SensorMap :=
  match get_sensors "J32EZEH4ZG3S0104" dualResponse with
  | .ok (some m) => m
  | _ => []

def mHeartbeatSlaveFix : SensorMap :=
  match get_sensors_ems_heartbeat "J32EZEH4ZG3S0104" reportTree []
      "J32EZEH4ZG3S0042" "_slave" with
  | .ok m => m
  | .error _ => []

/-! ## Keying invariant: map key = record's internal_unique_id (claim C10) -/

def uidOk (e : String × PowerOceanEndPoint) : Prop :=
  e.2.internal_unique_id = e.1


theorem dlookup_nil {α : Type} (k : String) : dlookup ([] : List (String × α)) k = none := rfl

theorem dlookup_cons {α : Type} (k' k : String) (v : α) (rest : List (String × α)) :
    dlookup ((k', v) :: rest) k = if k' = k then some v else dlookup rest k := rfl

theorem dlookup_dinsert_self {α : Type} (m : List (String × α)) (k : String) (v : α) :
    dlookup (dinsert m k v) k = some v := by
  induction m with
  | nil => simp [dinsert, dlookup]
  | cons e rest ih =>
    obtain ⟨k', v'⟩ := e
    by_cases h : k' = k
    · simp [dinsert, h, dlookup]
    · simp [dinsert, h, dlookup, ih]

theorem dlookup_dinsert_ne {α : Type} (m : List (String × α)) (k k' : String)
    (v : α) (h : k' ≠ k) : dlookup (dinsert m k' v) k = dlookup m k := by
  induction m with
  | nil => simp [dinsert, dlookup, h]
  | cons e rest ih =>
    obtain ⟨k₀, v₀⟩ := e
    by_cases h0 : k₀ = k'
    · simp [dinsert, h0, dlookup, h]
    · simp only [dinsert, if_neg h0, dlookup]
      by_cases h1 : k₀ = k
      · simp [h1]
      · simp [h1, ih]

theorem dlookup_eq_none_iff {α : Type} (m : List (String × α)) (k : String) :
    dlookup m k = none ↔ k ∉ m.map Prod.fst := by
  induction m with
  | nil => simp [dlookup]
  | cons e rest ih =>
    obtain ⟨k', v'⟩ := e
    by_cases h : k' = k
    · simp [dlookup, h]
    · simp [dlookup, h, ih, Ne.symm h]

theorem dinsert_keys {α : Type} (m : List (String × α)) (k : String) (v : α) :
    (dinsert m k v).map Prod.fst =
      if k ∈ m.map Prod.fst then m.map Prod.fst else m.map Prod.fst ++ [k] := by
  induction m with
  | nil => simp [dinsert]
  | cons e rest ih =>
    obtain ⟨k', v'⟩ := e
    by_cases h : k' = k
    · simp [dinsert, h]
    · simp only [dinsert, if_neg h, List.map_cons, ih]
      by_cases h2 : k ∈ rest.map Prod.fst
      · simp [h2, Ne.symm h]
      · simp [h2, Ne.symm h]

theorem keysNodup_dinsert {α : Type} (m : List (String × α)) (k : String)
    (v : α) (h : keysNodup m) : keysNodup (dinsert m k v) := by
  unfold keysNodup at h ⊢
  rw [dinsert_keys]
  by_cases hm : k ∈ m.map Prod.fst
  · simpa [hm]
  · simpa [hm, List.nodup_append] using h

theorem keysNodup_dupdate {α : Type} (m upd : List (String × α))
    (h : keysNodup m) : keysNodup (dupdate m upd) := by
  induction upd generalizing m with
  | nil => simpa [dupdate]
  | cons e rest ih =>
    show keysNodup (dupdate (dinsert m e.1 e.2) rest)
    exact ih _ (keysNodup_dinsert _ _ _ h)

theorem dlookup_dupdate_not_mem {α : Type} (m upd : List (String × α))
    (k : String) (h : k ∉ upd.map Prod.fst) :
    dlookup (dupdate m upd) k = dlookup m k := by
  induction upd generalizing m with
  | nil => simp [dupdate]
  | cons e rest ih =>
    simp only [List.map_cons, List.mem_cons, not_or] at h
    show dlookup (dupdate (dinsert m e.1 e.2) rest) k = dlookup m k
    rw [ih _ h.2]
    exact dlookup_dinsert_ne m k e.1 e.2 (Ne.symm h.1)

theorem dlookup_dupdate_of_nodup {α : Type} (m upd : List (String × α))
    (k : String) (v : α) (hnd : keysNodup upd) (h : dlookup upd k = some v) :
    dlookup (dupdate m upd) k = some v := by
  induction upd generalizing m with
  | nil => simp [dlookup] at h
  | cons e rest ih =>
    obtain ⟨k', v'⟩ := e
    unfold keysNodup at hnd
    simp only [List.map_cons, List.nodup_cons] at hnd
    by_cases hk : k' = k
    · subst hk
      simp [dlookup] at h
      subst h
      show dlookup (dupdate (dinsert m k' v') rest) k' = some v'
      rw [dlookup_dupdate_not_mem _ _ _ hnd.1, dlookup_dinsert_self]
    · simp only [dlookup, if_neg hk] at h
      show dlookup (dupdate (dinsert m k' v') rest) k = some v
      exact ih _ hnd.2 h

theorem mem_dinsert {α : Type} (m : List (String × α)) (k : String) (v : α)
    (e : String × α) (he : e ∈ dinsert m k v) : e ∈ m ∨ e = (k, v) := by
  induction m with
  | nil => simpa [dinsert] using he
  | cons e0 rest ih =>
    obtain ⟨k', v'⟩ := e0
    by_cases h : k' = k
    · simp only [dinsert, if_pos h, List.mem_cons] at he
      rcases he with h1 | h1
      · right; exact h1
      · left; exact List.mem_cons_of_mem _ h1
    · simp only [dinsert, if_neg h, List.mem_cons] at he
      rcases he with h1 | h1
      · left; simp [h1]
      · rcases ih h1 with h2 | h2
        · left; exact List.mem_cons_of_mem _ h2
        · right; exact h2

theorem forall_mem_dinsert {α : Type} (P : String × α → Prop)
    (m : List (String × α)) (k : String) (v : α)
    (hm : ∀ e ∈ m, P e) (hv : P (k, v)) : ∀ e ∈ dinsert m k v, P e := by
  intro e he
  rcases mem_dinsert m k v e he with h | h
  · exact hm e h
  · rw [h]; exact hv

theorem forall_mem_dupdate {α : Type} (P : String × α → Prop)
    (m upd : List (String × α)) (hm : ∀ e ∈ m, P e) (hu : ∀ e ∈ upd, P e) :
    ∀ e ∈ dupdate m upd, P e := by
  induction upd generalizing m with
  | nil => exact fun e he => hm e he
  | cons e0 rest ih =>
    show ∀ e ∈ dupdate (dinsert m e0.1 e0.2) rest, P e
    refine ih _ (forall_mem_dinsert P m e0.1 e0.2 hm ?_) ?_
    · have := hu e0 (List.mem_cons_self _ _); simpa using this
    · intro e he; exact hu e (List.mem_cons_of_mem _ he)

theorem filter_count_one {α : Type} (m : List (String × α)) (k : String)
    (v : α) (hnd : keysNodup m) (h : dlookup m k = some v) :
    (m.filter (fun e => e.1 = k)).length = 1 := by
  induction m with
  | nil => simp [dlookup] at h
  | cons e rest ih =>
    obtain ⟨k', v'⟩ := e
    unfold keysNodup at hnd
    simp only [List.map_cons, List.nodup_cons] at hnd
    by_cases hk : k' = k
    · subst hk
      have : rest.filter (fun e => e.1 = k') = [] := by
        rw [List.filter_eq_nil_iff]
        intro e he hke
        exact hnd.1 (by
          simp only [decide_eq_true_eq] at hke
          exact hke ▸ List.mem_map_of_mem Prod.fst he)
      simp [List.filter, this]
    · simp only [dlookup, if_neg hk] at h
      have := ih hnd.2 h
      simp only [List.filter, decide_eq_true_eq]
      simpa [hk] using this

/-! ## String lemmas -/

theorem str_append_cancel_left (a b c : String) (h : a ++ b = a ++ c) :
    b = c := by
  apply String.ext
  have hd := congrArg String.data h
  simp only [String.data_append] at hd
  exact List.append_cancel_left hd

theorem list_isPrefixOf_append (l m : List Char) :
    l.isPrefixOf (l ++ m) = true := by
  induction l with
  | nil => simp [List.isPrefixOf]
  | cons c rest ih => simp [List.isPrefixOf, ih]

theorem pyStartsWith_append (a b : String) : pyStartsWith (a ++ b) a = true := by
  unfold pyStartsWith
  rw [String.data_append]
  exact list_isPrefixOf_append _ _

/-- Splitting at a separator character that occurs in neither suffix part is
unambiguous. -/
theorem append_sep_inj (xs ys ks ts : List Char)
    (hk : '_' ∉ ks) (ht : '_' ∉ ts)
    (h : xs ++ '_' :: ks = ys ++ '_' :: ts) : xs = ys ∧ ks = ts := by
  induction xs generalizing ys with
  | nil =>
    cases ys with
    | nil => simpa using h
    | cons c ys' =>
      simp only [List.nil_append, List.cons_append, List.cons.injEq] at h
      exact absurd (h.2 ▸ List.mem_append_right ys' (List.mem_cons_self _ _)) hk
  | cons a xs' ih =>
    cases ys with
    | nil =>
      simp only [List.nil_append, List.cons_append, List.cons.injEq] at h
      exact absurd (h.2.symm ▸ List.mem_append_right xs' (List.mem_cons_self _ _)) ht
    | cons c ys' =>
      simp only [List.cons_append, List.cons.injEq] at h
      obtain ⟨h1, h2⟩ := ih ys' h.2
      exact ⟨by rw [h.1, h1], h2⟩

theorem ems_uid_inj (sn a b : String) (h : ems_uid sn a = ems_uid sn b) :
    a = b :=
  str_append_cancel_left _ _ _ h

theorem hb_uid_inj (sn a b : String) (h : hb_uid sn a = hb_uid sn b) :
    a = b :=
  str_append_cancel_left _ _ _ h

theorem bp_uid_split (sn b bat k t : String)
    (hk : '_' ∉ k.data) (ht : '_' ∉ t.data)
    (h : bp_uid sn b k = bp_uid sn bat t) : b = bat ∧ k = t := by
  have hd := congrArg String.data h
  unfold bp_uid at hd
  simp only [String.data_append, List.append_assoc, List.cons_append,
    List.singleton_append, List.nil_append] at hd
  have h1 := List.append_cancel_left hd
  simp only [List.cons.injEq, eq_self_iff_true, true_and] at h1
  obtain ⟨hb, hkt⟩ := append_sep_inj _ _ _ _ hk ht h1
  exact ⟨String.ext hb, String.ext hkt⟩

/-! ## Concrete fixtures -/

/-- Claim C1: for a two-key `parallel` mapping containing the instance's own
serial, the resolver is claimed to assign `master_sn` by comparing the first
key against the configured serial.  The comparison logic is present in the
source, but the leftover debug statements perform unconditional lookups of
the two serials hardcoded in the source, so the resolver raises `KeyError`
on any other pair of serials (first conjunct); with the hardcoded pair the
claimed master/slave assignment does hold for either configured serial
(second and third conjuncts). -/
theorem c1_resolver_hardcoded_serials :
    get_serial_numbers "SNMASTER001A0042" genericDualResponse =
      .error "KeyError: J32EZEH4ZG3S0104" ∧
    (get_serial_numbers "J32EZEH4ZG3S0104" dualResponse).map
        (fun p => (p.1.master_sn, p.1.slave_sn, p.2)) =
      .ok (some "J32EZEH4ZG3S0104", some "J32EZEH4ZG3S0042", 2) ∧
    (get_serial_numbers "J32EZEH4ZG3S0042" dualResponse).map
        (fun p => (p.1.master_sn, p.1.slave_sn, p.2)) =
      .ok (some "J32EZEH4ZG3S0042", some "J32EZEH4ZG3S0104", 2) :=
  ⟨rfl, rfl, rfl⟩

/-- Claim C2: a `parallel` key count other than 2 is claimed to make
`_get_sensors` abort explicitly without crashing.  A one-key `parallel`
mapping instead raises `KeyError` out of the resolver's hardcoded debug
lookups (first conjunct); the explicit-abort path is only reached when the
two hardcoded serials are both present, e.g. with three keys (second
conjunct, `.ok none` = the bare `return`). -/
theorem c2_unsupported_topology_crash :
    get_sensors "J32EZEH4ZG3S0104" oneKeyResponse =
      .error "KeyError: J32EZEH4ZG3S0042" ∧
    get_sensors "J32EZEH4ZG3S0104" threeKeyResponse = .ok none :=
  ⟨rfl, rfl⟩

/-- Claim C3: a response without a `parallel` key is claimed to resolve to
Single topology with count 0 and `data.quota` as report root.  The shipped
resolver instead raises `KeyError: parallel` in its debug block before the
`'parallel' in p_data.keys()` test, so the whole normalization raises. -/
theorem c3_single_topology_crash :
    get_serial_numbers "SN1" singleResponse = .error "KeyError: parallel" ∧
    get_sensors "SN1" singleResponse = .error "KeyError: parallel" :=
  ⟨rfl, rfl⟩

/-! ## Change-report extractor lemmas (claim C6) -/

theorem emsChangeFold_keysNodup (sn sfx : String) (sel : List String)
    (fs : List (String × JValue)) (acc : SensorMap) (h : keysNodup acc) :
    keysNodup (emsChangeFold sn sfx sel fs acc) := by
  induction fs generalizing acc with
  | nil => exact h
  | cons e rest ih =>
    obtain ⟨k0, v0⟩ := e
    simp only [emsChangeFold]
    apply ih
    split
    · exact keysNodup_dinsert _ _ _ h
    · exact h

theorem emsChangeFold_lookup_preserve (sn sfx : String) (sel : List String)
    (fs : List (String × JValue)) (acc : SensorMap) (key : String)
    (h : key ∉ fs.map Prod.fst) :
    dlookup (emsChangeFold sn sfx sel fs acc) (ems_uid sn key) =
      dlookup acc (ems_uid sn key) := by
  induction fs generalizing acc with
  | nil => rfl
  | cons e rest ih =>
    obtain ⟨k0, v0⟩ := e
    simp only [List.map_cons, List.mem_cons, not_or] at h
    simp only [emsChangeFold]
    rw [ih _ h.2]
    split
    · exact dlookup_dinsert_ne _ _ _ _
        (fun hc => h.1 (ems_uid_inj sn k0 key hc).symm)
    · rfl

theorem emsChangeFold_lookup_found (sn sfx : String) (sel : List String)
    (fs : List (String × JValue)) (acc : SensorMap) (key : String) (v : JValue)
    (hnd : (fs.map Prod.fst).Nodup)
    (hv : dlookup fs key = some v) (hsel : sel.contains key = true) :
    dlookup (emsChangeFold sn sfx sel fs acc) (ems_uid sn key) =
      some (ems_change_record sn sfx key v) := by
  induction fs generalizing acc with
  | nil => simp [dlookup] at hv
  | cons e rest ih =>
    obtain ⟨k0, v0⟩ := e
    simp only [List.map_cons, List.nodup_cons] at hnd
    by_cases hk : k0 = key
    · subst hk
      simp [dlookup] at hv
      subst hv
      simp only [emsChangeFold]
      rw [if_pos hsel]
      rw [emsChangeFold_lookup_preserve _ _ _ _ _ _ hnd.1]
      exact dlookup_dinsert_self _ _ _
    · simp only [dlookup, if_neg hk] at hv
      simp only [emsChangeFold]
      exact ih _ hnd.2 hv

theorem emsChangeFold_lookup_none (sn sfx : String) (sel : List String)
    (fs : List (String × JValue)) (acc : SensorMap) (key : String)
    (h : dlookup fs key = none ∨ sel.contains key = false) :
    dlookup (emsChangeFold sn sfx sel fs acc) (ems_uid sn key) =
      dlookup acc (ems_uid sn key) := by
  induction fs generalizing acc with
  | nil => rfl
  | cons e rest ih =>
    obtain ⟨k0, v0⟩ := e
    by_cases hk : k0 = key
    · subst hk
      have hc : sel.contains k0 = false := by
        rcases h with h | h
        · simp [dlookup] at h
        · exact h
      simp only [emsChangeFold]
      rw [if_neg (by rw [hc]; simp)]
      exact ih _ (Or.inr hc)
    · have h' : dlookup rest key = none ∨ sel.contains key = false := by
        rcases h with h | h
        · left; simpa [dlookup, hk] using h
        · right; exact h
      simp only [emsChangeFold]
      rw [ih _ h']
      split
      · exact dlookup_dinsert_ne _ _ _ _
          (fun hc => hk (ems_uid_inj sn k0 key hc))
      · rfl

theorem scontains_iff (l : List String) (a : String) :
    l.contains a = true ↔ a ∈ l := List.elem_iff

/-- Claim C6 (amended): the change-report extractor emits a record for a key
iff the key is present and either belongs to the fixed allow-list or matches
`re.match("mppt.*Code", key)` — i.e. starts with `mppt` and contains `Code`
after that prefix (trailing characters allowed); each emitted record is the
allow-listed record with unique id `{inverter_sn}_JTS1_EMS_CHANGE_REPORT_{key}`. -/
theorem c6_change_report_emission (dfs fs : List (String × JValue))
    (sn sfx key : String)
    (hroot : dlookup dfs "JTS1_EMS_CHANGE_REPORT" = some (.jobj fs))
    (hnd : (fs.map Prod.fst).Nodup) :
    ∃ m, get_sensors_ems_change (.jobj dfs) [] sn sfx = .ok m ∧
      ((dlookup m (ems_uid sn key)).isSome ↔
        (dlookup fs key).isSome ∧
          (key ∈ ems_change_select ∨ mpptCodeMatch key = true)) ∧
      (∀ rec, dlookup m (ems_uid sn key) = some rec →
        rec = ems_change_record sn sfx key ((dlookup fs key).getD .jnull)) := by
  have hrun : get_sensors_ems_change (.jobj dfs) [] sn sfx =
      .ok (dupdate [] (emsChangeFold sn sfx
        (ems_change_select ++ (fs.map Prod.fst).filter mpptCodeMatch) fs [])) := by
    unfold get_sensors_ems_change
    simp [JValue.getKey, hroot, JValue.asObj]
  refine ⟨_, hrun, ?_⟩
  have hnodup_data : keysNodup (emsChangeFold sn sfx
      (ems_change_select ++ (fs.map Prod.fst).filter mpptCodeMatch) fs []) :=
    emsChangeFold_keysNodup _ _ _ _ _ (by simp [keysNodup])
  by_cases hpres : ∃ v, dlookup fs key = some v
  · obtain ⟨v, hv⟩ := hpres
    have hmem : key ∈ fs.map Prod.fst := by
      by_contra hc
      rw [(dlookup_eq_none_iff fs key).mpr hc] at hv
      cases hv
    by_cases hs : key ∈ ems_change_select ∨ mpptCodeMatch key = true
    · have hcont : (ems_change_select ++
          (fs.map Prod.fst).filter mpptCodeMatch).contains key = true := by
        rw [scontains_iff]
        rcases hs with hs | hs
        · exact List.mem_append_left _ hs
        · exact List.mem_append_right _ (List.mem_filter.mpr ⟨hmem, hs⟩)
      have hfound := emsChangeFold_lookup_found sn sfx _ fs [] key v hnd hv hcont
      have hlook : dlookup (dupdate [] (emsChangeFold sn sfx
            (ems_change_select ++ (fs.map Prod.fst).filter mpptCodeMatch) fs []))
          (ems_uid sn key) = some (ems_change_record sn sfx key v) :=
        dlookup_dupdate_of_nodup _ _ _ _ hnodup_data hfound
      constructor
      · constructor
        · intro _; exact ⟨by simp [hv], hs⟩
        · intro _; simp [hlook]
      · intro rec hrec
        rw [hlook] at hrec
        simp only [Option.some.injEq] at hrec
        rw [← hrec, hv]
        rfl
    · have hcont : (ems_change_select ++
          (fs.map Prod.fst).filter mpptCodeMatch).contains key = false := by
        cases hb : (ems_change_select ++
            (fs.map Prod.fst).filter mpptCodeMatch).contains key
        · rfl
        · exfalso
          rcases List.mem_append.mp ((scontains_iff _ _).mp hb) with hin | hin
          · exact hs (Or.inl hin)
          · exact hs (Or.inr (List.mem_filter.mp hin).2)
      have hnone := emsChangeFold_lookup_none sn sfx _ fs [] key (Or.inr hcont)
      have hlook : dlookup (dupdate [] (emsChangeFold sn sfx
            (ems_change_select ++ (fs.map Prod.fst).filter mpptCodeMatch) fs []))
          (ems_uid sn key) = none := by
        rw [dlookup_dupdate_not_mem _ _ _
          ((dlookup_eq_none_iff _ _).mp (hnone.trans rfl))]
        rfl
      constructor
      · constructor
        · intro h; rw [hlook] at h; cases h
        · rintro ⟨_, hcond⟩; exact absurd hcond hs
      · intro rec hrec; rw [hlook] at hrec; cases hrec
  · have hvnone : dlookup fs key = none := by
      cases hl : dlookup fs key
      · rfl
      · exact absurd ⟨_, hl⟩ hpres
    have hnone := emsChangeFold_lookup_none sn sfx
      (ems_change_select ++ (fs.map Prod.fst).filter mpptCodeMatch) fs [] key
      (Or.inl hvnone)
    have hlook : dlookup (dupdate [] (emsChangeFold sn sfx
          (ems_change_select ++ (fs.map Prod.fst).filter mpptCodeMatch) fs []))
        (ems_uid sn key) = none := by
      rw [dlookup_dupdate_not_mem _ _ _
        ((dlookup_eq_none_iff _ _).mp (hnone.trans rfl))]
      rfl
    constructor
    · constructor
      · intro h; rw [hlook] at h; cases h
      · rintro ⟨hcond, _⟩; rw [hvnone] at hcond; cases hcond
    · intro rec hrec; rw [hlook] at hrec; cases hrec

/-- Claim C6 counterexample: the key `mpptHwErrCode2` starts with `mppt` but
does not end with `Code`; `re.match("mppt.*Code", ...)` still accepts it, so
the extractor emits a record for it — the claimed "ends with `Code`"
characterization is wrong. -/
theorem c6_counterexample :
    ((get_sensors_ems_change (.jobj [("JTS1_EMS_CHANGE_REPORT",
          .jobj [("mpptHwErrCode2", .jnum 5)])]) [] "SN1" "").toOption.bind
        (fun m => dlookup m "SN1_JTS1_EMS_CHANGE_REPORT_mpptHwErrCode2")).isSome
      = true ∧
    pyEndsWith "mpptHwErrCode2" "Code" = false ∧
    "mpptHwErrCode2" ∉ ems_change_select :=
  ⟨rfl, rfl, by decide⟩

theorem c6_witness : ∃ m,
    get_sensors_ems_change (.jobj [("JTS1_EMS_CHANGE_REPORT",
        .jobj [("bpSoc", .jnum 60)])]) [] "SN1" "" = .ok m ∧
    ((dlookup m (ems_uid "SN1" "bpSoc")).isSome ↔
      (dlookup [("bpSoc", JValue.jnum 60)] "bpSoc").isSome ∧
        ("bpSoc" ∈ ems_change_select ∨ mpptCodeMatch "bpSoc" = true)) ∧
    (∀ rec, dlookup m (ems_uid "SN1" "bpSoc") = some rec →
      rec = ems_change_record "SN1" "" "bpSoc"
        ((dlookup [("bpSoc", JValue.jnum 60)] "bpSoc").getD .jnull)) :=
  c6_change_report_emission
    [("JTS1_EMS_CHANGE_REPORT", .jobj [("bpSoc", .jnum 60)])]
    [("bpSoc", .jnum 60)] "SN1" "" "bpSoc" rfl (by decide)

/-! ## Error-propagation lemmas (claims C4 and C5) -/

theorem dlookup_some_mem_keys {α : Type} (m : List (String × α)) (k : String)
    (v : α) (h : dlookup m k = some v) : k ∈ m.map Prod.fst := by
  by_contra hc
  rw [(dlookup_eq_none_iff m k).mpr hc] at h
  cases h

theorem ems_change_missing (dfs : List (String × JValue)) (sensors : SensorMap)
    (sn sfx : String) (h : dlookup dfs "JTS1_EMS_CHANGE_REPORT" = none) :
    get_sensors_ems_change (.jobj dfs) sensors sn sfx =
      .error ("KeyError: " ++ "JTS1_EMS_CHANGE_REPORT") := by
  unfold get_sensors_ems_change
  simp [JValue.getKey, h]

theorem battery_missing (dfs : List (String × JValue)) (sensors : SensorMap)
    (sn sfx : String) (h : dlookup dfs "JTS1_BP_STA_REPORT" = none) :
    get_sensors_battery (.jobj dfs) sensors sn sfx =
      .error ("KeyError: " ++ "JTS1_BP_STA_REPORT") := by
  unfold get_sensors_battery
  simp [JValue.getKey, h]

theorem heartbeat_missing (dfs : List (String × JValue)) (sensors : SensorMap)
    (self_sn sn sfx : String) (h : dlookup dfs "JTS1_EMS_HEARTBEAT" = none) :
    get_sensors_ems_heartbeat self_sn (.jobj dfs) sensors sn sfx =
      .error ("KeyError: " ++ "JTS1_EMS_HEARTBEAT") := by
  unfold get_sensors_ems_heartbeat
  simp [JValue.getKey, h]

/-- Claim C4 (amended): a report sub-tree absent from the master inverter's
report root is NOT caught at the extractor boundary: the lookup failure
propagates and `_get_sensors` aborts with the exception, returning no map at
all (no partial results).  The disjunct states which of the three sections is
missing, with the preceding extractor runs as hypotheses. -/
theorem c4_missing_report_aborts (sn : String) (response : JValue)
    (st : EcoState) (mfs : List (String × JValue)) (msn : String)
    (s0 s1 s2 : SensorMap)
    (hres : get_serial_numbers sn response = .ok (st, 2))
    (hmd : st.master_data = some (.jobj mfs))
    (hmsn : st.master_sn = some msn)
    (hdata : get_sensors_data sn response = .ok s0)
    (habs : dlookup mfs "JTS1_EMS_CHANGE_REPORT" = none
      ∨ (get_sensors_ems_change (.jobj mfs) s0 msn "_master" = .ok s1 ∧
         dlookup mfs "JTS1_BP_STA_REPORT" = none)
      ∨ (get_sensors_ems_change (.jobj mfs) s0 msn "_master" = .ok s1 ∧
         get_sensors_battery (.jobj mfs) s1 msn "_master" = .ok s2 ∧
         dlookup mfs "JTS1_EMS_HEARTBEAT" = none)) :
    ∃ e, get_sensors sn response = .error e := by
  rcases habs with h | ⟨hc, h⟩ | ⟨hc, hb, h⟩
  · refine ⟨"KeyError: " ++ "JTS1_EMS_CHANGE_REPORT", ?_⟩
    have hce := ems_change_missing mfs s0 msn "_master" h
    unfold get_sensors
    simp [hres, hdata, hmd, hmsn, attr, hce]
  · refine ⟨"KeyError: " ++ "JTS1_BP_STA_REPORT", ?_⟩
    have hbe := battery_missing mfs s1 msn "_master" h
    unfold get_sensors
    simp [hres, hdata, hmd, hmsn, attr, hc, hbe]
  · refine ⟨"KeyError: " ++ "JTS1_EMS_HEARTBEAT", ?_⟩
    have hhe := heartbeat_missing mfs s2 sn msn "_master" h
    unfold get_sensors
    simp [hres, hdata, hmd, hmsn, attr, hc, hb, hhe]

theorem batLoop_error_of_undecodable (sn sfx : String)
    (bfs : List (String × JValue)) (batts : List String) (ibat : Nat)
    (data : SensorMap) (bat s : String) (e0 : String)
    (hmem : bat ∈ batts)
    (hbat : dlookup bfs bat = some (.jstr s))
    (hdec : json_loads s = .error e0) :
    ∃ e, batLoop sn sfx bfs batts ibat data = .error e := by
  induction batts generalizing ibat data with
  | nil => cases hmem
  | cons b rest ih =>
    simp only [batLoop]
    rcases List.mem_cons.mp hmem with hb | hb
    · subst hb
      have hpack : batteryPack sn sfx ibat bat (.jstr s) data = .error e0 := by
        simp [batteryPack, hdec]
      refine ⟨e0, ?_⟩
      simp only [hbat, hpack]
    · cases hlk : dlookup bfs b with
      | none =>
        refine ⟨"KeyError: " ++ b, ?_⟩
        simp only [hlk]
      | some payload =>
        cases hstep : batteryPack sn sfx ibat b payload data with
        | error e =>
          refine ⟨e, ?_⟩
          simp only [hlk, hstep]
        | ok data' =>
          obtain ⟨e, he⟩ := ih (ibat + 1) data' hb
          refine ⟨e, ?_⟩
          simp only [hlk, hstep, he]

/-- Claim C5 (amended): a battery-pack payload that fails JSON decoding is
NOT skipped: the decode error propagates out of the battery extractor and
`_get_sensors` aborts, producing no records for the remaining packs or
sections. -/
theorem c5_undecodable_pack_aborts (sn : String) (response : JValue)
    (st : EcoState) (mfs bfs : List (String × JValue)) (msn : String)
    (s0 s1 : SensorMap) (bat s e0 : String)
    (hres : get_serial_numbers sn response = .ok (st, 2))
    (hmd : st.master_data = some (.jobj mfs))
    (hmsn : st.master_sn = some msn)
    (hdata : get_sensors_data sn response = .ok s0)
    (hchange : get_sensors_ems_change (.jobj mfs) s0 msn "_master" = .ok s1)
    (hbp : dlookup mfs "JTS1_BP_STA_REPORT" = some (.jobj bfs))
    (hbat : dlookup bfs bat = some (.jstr s))
    (hlen : 12 < bat.length)
    (hdec : json_loads s = .error e0) :
    ∃ e, get_sensors sn response = .error e := by
  have hmem : bat ∈ (bfs.map Prod.fst).filter (fun x => 12 < x.length) :=
    List.mem_filter.mpr ⟨dlookup_some_mem_keys bfs bat _ hbat, by simpa using hlen⟩
  obtain ⟨e1, hloop⟩ := batLoop_error_of_undecodable msn "_master" bfs
    ((bfs.map Prod.fst).filter (fun x => 12 < x.length)) 0 [] bat s e0
    hmem hbat hdec
  have hbattery : get_sensors_battery (.jobj mfs) s1 msn "_master" = .error e1 := by
    unfold get_sensors_battery
    simp [JValue.getKey, hbp, JValue.asObj, hloop]
  exact ⟨e1, by
    unfold get_sensors
    simp [hres, hdata, hmd, hmsn, attr, hchange, hbattery]⟩

/-- Claim C4 counterexample: with `JTS1_EMS_CHANGE_REPORT` missing from the
master root (battery and heartbeat sections present), `_get_sensors` raises
`KeyError` instead of returning the records of the sections that succeeded. -/
theorem c4_counterexample :
    get_sensors "J32EZEH4ZG3S0104" missingChangeResponse =
      .error ("KeyError: " ++ "JTS1_EMS_CHANGE_REPORT") := rfl

theorem c4_witness :
    ∃ e, get_sensors "J32EZEH4ZG3S0104" missingChangeResponse = .error e :=
  c4_missing_report_aborts "J32EZEH4ZG3S0104" missingChangeResponse
    stMissingChange mfsNoChange "J32EZEH4ZG3S0104" s0MissingChange [] []
    rfl rfl rfl rfl (Or.inl rfl)

/-- Claim C5 counterexample: one undecodable battery-pack payload makes the
whole normalization raise; no records are produced for the well-formed second
pack or for the other sections, contradicting "skip the pack". -/
theorem c5_counterexample :
    get_sensors "J32EZEH4ZG3S0104" badPackResponse =
      .error "json: expecting value" := rfl

theorem c5_witness :
    ∃ e, get_sensors "J32EZEH4ZG3S0104" badPackResponse = .error e :=
  c5_undecodable_pack_aborts "J32EZEH4ZG3S0104" badPackResponse stBadPack
    mfsBadPack bfsBadPack "J32EZEH4ZG3S0104" s0BadPack s1BadPack
    "BADPACKSERIAL0001" "not json" "json: expecting value"
    rfl rfl rfl rfl rfl rfl rfl (by decide) rfl

/-! ## Nodup preservation through the extractor folds -/

theorem hbScalarFold_keysNodup (sn sfx : String) (fs : List (String × JValue))
    (data : SensorMap) (lk : Option String) (h : keysNodup data) :
    keysNodup (hbScalarFold sn sfx fs data lk).1 := by
  induction fs generalizing data lk with
  | nil => exact h
  | cons e rest ih =>
    obtain ⟨k0, v0⟩ := e
    simp only [hbScalarFold]
    apply ih
    split
    · exact keysNodup_dinsert _ _ _ h
    · exact h

theorem phaseFold_keysNodup (sn sfx phase : String)
    (fs : List (String × JValue)) (data : SensorMap) (lk : Option String)
    (h : keysNodup data) : keysNodup (phaseFold sn sfx phase fs data lk).1 := by
  induction fs generalizing data lk with
  | nil => exact h
  | cons e rest ih =>
    obtain ⟨k0, v0⟩ := e
    simp only [phaseFold]
    exact ih _ _ (keysNodup_dinsert _ _ _ h)

theorem phaseLoop_keysNodup (sn sfx : String) (hfs : List (String × JValue))
    (ph : List String) (data : SensorMap) (lk : Option String)
    (out : SensorMap × Option String)
    (h : keysNodup data) (hok : phaseLoop sn sfx hfs ph data lk = .ok out) :
    keysNodup out.1 := by
  induction ph generalizing data lk with
  | nil =>
    simp only [phaseLoop, Except.ok.injEq] at hok
    rw [← hok]
    exact h
  | cons phase rest ih =>
    simp only [phaseLoop] at hok
    cases hlk : dlookup hfs phase with
    | none => rw [hlk] at hok; cases hok
    | some v =>
      simp only [hlk] at hok
      cases hobj : v.asObj with
      | error e => simp only [hobj] at hok; cases hok
      | ok pf =>
        simp only [hobj] at hok
        exact ih _ _ (phaseFold_keysNodup sn sfx phase pf data lk h) hok

theorem mpptFieldFold_keysNodup (self_sn sn sfx mpptpv : String)
    (pf : List (String × JValue)) (data : SensorMap) (lk : Option String)
    (s : Rat) (out : SensorMap × Option String × Rat)
    (h : keysNodup data)
    (hok : mpptFieldFold self_sn sn sfx mpptpv pf data lk s = .ok out) :
    keysNodup out.1 := by
  induction pf generalizing data lk s with
  | nil =>
    simp only [mpptFieldFold, Except.ok.injEq] at hok
    rw [← hok]
    exact h
  | cons e rest ih =>
    obtain ⟨k0, v0⟩ := e
    simp only [mpptFieldFold] at hok
    by_cases hk : k0 = "pwr"
    · rw [if_pos hk] at hok
      cases hq : pyNum v0 with
      | error e => rw [hq] at hok; cases hok
      | ok q =>
        rw [hq] at hok
        exact ih _ _ _ (keysNodup_dinsert _ _ _ h) hok
    · rw [if_neg hk] at hok
      exact ih _ _ _ (keysNodup_dinsert _ _ _ h) hok

theorem mpptLoop_keysNodup (self_sn sn sfx : String) (xs : List JValue)
    (i : Nat) (data : SensorMap) (lk : Option String) (s : Rat)
    (out : SensorMap × Option String × Rat)
    (h : keysNodup data)
    (hok : mpptLoop self_sn sn sfx xs i data lk s = .ok out) :
    keysNodup out.1 := by
  induction xs generalizing i data lk s with
  | nil =>
    simp only [mpptLoop, Except.ok.injEq] at hok
    rw [← hok]
    exact h
  | cons el rest ih =>
    simp only [mpptLoop] at hok
    cases hobj : el.asObj with
    | error e => simp only [hobj] at hok; cases hok
    | ok pf =>
      simp only [hobj] at hok
      cases hf : mpptFieldFold self_sn sn sfx ("mpptPv" ++ toString (i + 1))
          pf data lk s with
      | error e => simp only [hf] at hok; cases hok
      | ok trip =>
        obtain ⟨data', lk', s'⟩ := trip
        simp only [hf] at hok
        exact ih _ _ _ _ (mpptFieldFold_keysNodup _ _ _ _ _ _ _ _ _ h hf) hok

/-! ## PV string power summation (claim C8) -/

theorem mpptFieldFold_sum_nopwr (self_sn sn sfx mpptpv : String)
    (pf : List (String × JValue)) (data : SensorMap) (lk : Option String)
    (s : Rat) (h : "pwr" ∉ pf.map Prod.fst) :
    ∃ out1 out2, mpptFieldFold self_sn sn sfx mpptpv pf data lk s =
      .ok (out1, out2, s) := by
  induction pf generalizing data lk with
  | nil => exact ⟨data, lk, rfl⟩
  | cons e rest ih =>
    obtain ⟨k0, v0⟩ := e
    simp only [List.map_cons, List.mem_cons, not_or] at h
    simp only [mpptFieldFold]
    rw [if_neg (fun hc => h.1 hc.symm)]
    exact ih _ _ h.2

theorem mpptFieldFold_sum (self_sn sn sfx mpptpv : String)
    (pf : List (String × JValue)) (data : SensorMap) (lk : Option String)
    (s q : Rat)
    (hnd : (pf.map Prod.fst).Nodup)
    (hpwr : dlookup pf "pwr" = some (.jnum q)) :
    ∃ out1 out2, mpptFieldFold self_sn sn sfx mpptpv pf data lk s =
      .ok (out1, out2, s + q) := by
  induction pf generalizing data lk s with
  | nil => simp [dlookup] at hpwr
  | cons e rest ih =>
    obtain ⟨k0, v0⟩ := e
    simp only [List.map_cons, List.nodup_cons] at hnd
    by_cases hk : k0 = "pwr"
    · subst hk
      simp [dlookup] at hpwr
      subst hpwr
      simp only [mpptFieldFold]
      simp only [eq_self_iff_true, if_true, pyNum]
      exact mpptFieldFold_sum_nopwr self_sn sn sfx mpptpv rest _ _ _ hnd.1
    · simp only [dlookup, if_neg hk] at hpwr
      simp only [mpptFieldFold]
      rw [if_neg hk]
      exact ih _ _ _ hnd.2 hpwr

theorem mpptLoop_sum (self_sn sn sfx : String)
    (pvs : List (List (String × JValue))) (ps : List Rat) (i : Nat)
    (data : SensorMap) (lk : Option String) (s : Rat)
    (hnd : ∀ o ∈ pvs, (o.map Prod.fst).Nodup)
    (hpwr : pvs.map (fun o => dlookup o "pwr") =
      ps.map (fun q => some (.jnum q))) :
    ∃ out1 out2, mpptLoop self_sn sn sfx (pvs.map JValue.jobj) i data lk s =
      .ok (out1, out2, s + ps.sum) := by
  induction pvs generalizing ps i data lk s with
  | nil =>
    cases ps with
    | nil => exact ⟨data, lk, by simp [mpptLoop]⟩
    | cons q ps' => cases hpwr
  | cons o pvs' ih =>
    cases ps with
    | nil => cases hpwr
    | cons q ps' =>
      simp only [List.map_cons, List.cons.injEq] at hpwr
      obtain ⟨hq, htail⟩ := hpwr
      simp only [List.map_cons, mpptLoop, JValue.asObj]
      obtain ⟨d1, l1, hf⟩ := mpptFieldFold_sum self_sn sn sfx
        ("mpptPv" ++ toString (i + 1)) o data lk s q
        (hnd o (List.mem_cons_self _ _)) hq
      simp only [hf]
      obtain ⟨d2, l2, hl⟩ := ih ps' (i + 1) d1 l1 (s + q)
        (fun x hx => hnd x (List.mem_cons_of_mem _ hx)) htail
      refine ⟨d2, l2, ?_⟩
      rw [hl]
      simp [add_assoc]

/-- Claim C8: when `mpptHeartBeat[0].mpptPv` is an array of PV-string objects
each carrying a numeric `pwr`, the heartbeat extractor emits the aggregate
record `{inverter_sn}_JTS1_EMS_HEARTBEAT_mpptHeartBeat_mpptPv_pwrTotal` whose
value is the sum of the per-string `pwr` values. -/
theorem c8_pwr_total (self_sn inv_sn sfx : String)
    (dfs hfs hb0 : List (String × JValue)) (hbl : List JValue)
    (pvs : List (List (String × JValue))) (ps : List Rat) (m : SensorMap)
    (hroot : dlookup dfs "JTS1_EMS_HEARTBEAT" = some (.jobj hfs))
    (hhb : dlookup hfs "mpptHeartBeat" = some (.jarr (JValue.jobj hb0 :: hbl)))
    (hpv : dlookup hb0 "mpptPv" = some (.jarr (pvs.map JValue.jobj)))
    (hnd : ∀ o ∈ pvs, (o.map Prod.fst).Nodup)
    (hpwr : pvs.map (fun o => dlookup o "pwr") =
      ps.map (fun q => some (.jnum q)))
    (hok : get_sensors_ems_heartbeat self_sn (.jobj dfs) [] inv_sn sfx = .ok m) :
    ∃ rec, dlookup m (hb_uid inv_sn "mpptHeartBeat_mpptPv_pwrTotal") = some rec ∧
      rec.internal_unique_id = hb_uid inv_sn "mpptHeartBeat_mpptPv_pwrTotal" ∧
      rec.value = .jnum ps.sum ∧
      rec.serial = inv_sn ∧
      rec.description = "Solarertrag aller Strings" := by
  unfold get_sensors_ems_heartbeat at hok
  simp only [JValue.getKey, hroot, JValue.asObj] at hok
  cases hsc : hbScalarFold inv_sn sfx hfs [] none with
  | mk data0 lk0 =>
  simp only [hsc] at hok
  have h0 : keysNodup data0 := by
    have := hbScalarFold_keysNodup inv_sn sfx hfs [] none (by simp [keysNodup])
    rwa [hsc] at this
  cases hph : phaseLoop inv_sn sfx hfs phases data0 lk0 with
  | error e => simp only [hph] at hok; cases hok
  | ok pair =>
  obtain ⟨data1, lk1⟩ := pair
  simp only [hph] at hok
  have h1 : keysNodup data1 :=
    phaseLoop_keysNodup inv_sn sfx hfs phases data0 lk0 (data1, lk1) h0 hph
  simp only [hhb, index0, hpv, mpvElems] at hok
  obtain ⟨d2, l2, hloop⟩ :=
    mpptLoop_sum self_sn inv_sn sfx pvs ps 0 data1 lk1 0 hnd hpwr
  simp only [hloop] at hok
  have h2 : keysNodup d2 := by
    have := mpptLoop_keysNodup self_sn inv_sn sfx (pvs.map JValue.jobj) 0
      data1 lk1 0 (d2, l2, 0 + ps.sum) h1 hloop
    exact this
  cases l2 with
  | none => simp at hok
  | some lk =>
  simp only [Except.ok.injEq] at hok
  refine ⟨pwrTotal_record inv_sn sfx lk (0 + ps.sum), ?_, rfl, ?_, rfl, rfl⟩
  · rw [← hok]
    exact dlookup_dupdate_of_nodup _ _ _ _
      (keysNodup_dinsert _ _ _ h2) (dlookup_dinsert_self _ _ _)
  · show JValue.jnum (0 + ps.sum) = JValue.jnum ps.sum
    rw [zero_add]

theorem c8_witness :
    ∃ rec, dlookup mHeartbeatFix
        (hb_uid "SNINV00001" "mpptHeartBeat_mpptPv_pwrTotal") = some rec ∧
      rec.internal_unique_id =
        hb_uid "SNINV00001" "mpptHeartBeat_mpptPv_pwrTotal" ∧
      rec.value = .jnum ([(100 : Rat), 150].sum) ∧
      rec.serial = "SNINV00001" ∧
      rec.description = "Solarertrag aller Strings" :=
  c8_pwr_total "SNSELF0001" "SNINV00001" ""
    [("JTS1_EMS_HEARTBEAT", .jobj heartbeatFields)] heartbeatFields
    [("mpptPv", .jarr (pvFieldsFix.map JValue.jobj))] []
    pvFieldsFix [100, 150] mHeartbeatFix
    rfl rfl rfl (by decide) rfl rfl

/-! ## Battery-pack mean temperature (claim C7) -/

theorem ratListOf_map_jnum (l : List Rat) :
    ratListOf (l.map JValue.jnum) = .ok l := by
  induction l with
  | nil => rfl
  | cons q rest ih => simp [ratListOf, pyNum, ih]

theorem bat_select_no_underscore :
    ∀ k' ∈ bat_sens_select, '_' ∉ k'.data := by decide

theorem bpTemp_no_underscore : '_' ∉ ("bpTemp" : String).data := by decide

theorem batPackFold_keysNodup (sn sfx name bat : String)
    (pfs : List (String × JValue)) (acc : SensorMap) (h : keysNodup acc) :
    keysNodup (batPackFold sn sfx name bat pfs acc) := by
  induction pfs generalizing acc with
  | nil => exact h
  | cons e rest ih =>
    obtain ⟨k0, v0⟩ := e
    simp only [batPackFold]
    apply ih
    split
    · exact keysNodup_dinsert _ _ _ h
    · exact h

theorem batPackFold_lookup_preserve (sn sfx name bat : String)
    (pfs : List (String × JValue)) (acc : SensorMap) (k : String)
    (h : ∀ k' ∈ bat_sens_select, k ≠ bp_uid sn bat k') :
    dlookup (batPackFold sn sfx name bat pfs acc) k = dlookup acc k := by
  induction pfs generalizing acc with
  | nil => rfl
  | cons e rest ih =>
    obtain ⟨k0, v0⟩ := e
    simp only [batPackFold]
    rw [ih _]
    split
    · next hc =>
      exact dlookup_dinsert_ne _ _ _ _
        (fun he => h k0 ((scontains_iff _ _).mp hc) he.symm)
    · rfl

theorem batteryPack_mean_eq (sn sfx : String) (ibat : Nat) (bat s : String)
    (pfs : List (String × JValue)) (temps : List Rat) (data : SensorMap)
    (hdec : json_loads s = .ok (.jobj pfs))
    (htemp : dlookup pfs "bpTemp" = some (.jarr (temps.map JValue.jnum)))
    (hne : temps ≠ []) :
    batteryPack sn sfx ibat bat (.jstr s) data =
      .ok (dinsert
        (batPackFold sn sfx ("bpack" ++ toString (ibat + 1) ++ "_") bat pfs data)
        (bp_uid sn bat "bpTemp")
        (battery_record sn sfx ("bpack" ++ toString (ibat + 1) ++ "_") bat
          "bpTemp" (.jnum (temps.sum / (temps.length : Rat))))) := by
  unfold batteryPack
  simp only [hdec, JValue.asObj, htemp, toRatList, ratListOf_map_jnum]
  rw [if_neg (fun hc => hne (List.length_eq_zero.mp hc))]

theorem batteryPack_preserve (sn sfx : String) (ibat : Nat) (b : String)
    (payload : JValue) (data data' : SensorMap) (k : String)
    (hok : batteryPack sn sfx ibat b payload data = .ok data')
    (h : ∀ k', (k' ∈ bat_sens_select ∨ k' = "bpTemp") → k ≠ bp_uid sn b k') :
    dlookup data' k = dlookup data k := by
  unfold batteryPack at hok
  cases payload with
  | jstr s =>
    cases hdec : json_loads s with
    | error e => simp only [hdec] at hok; cases hok
    | ok d_bat =>
      simp only [hdec] at hok
      cases hobj : d_bat.asObj with
      | error e => simp only [hobj] at hok; cases hok
      | ok pfs =>
        simp only [hobj] at hok
        cases htemp : dlookup pfs "bpTemp" with
        | none => simp only [htemp] at hok; cases hok
        | some temp =>
          simp only [htemp] at hok
          cases htr : toRatList temp with
          | error e => simp only [htr] at hok; cases hok
          | ok temps =>
            simp only [htr] at hok
            by_cases hz : temps.length = 0
            · rw [if_pos hz] at hok; cases hok
            · rw [if_neg hz] at hok
              simp only [Except.ok.injEq] at hok
              rw [← hok]
              rw [dlookup_dinsert_ne _ _ _ _
                (fun he => h "bpTemp" (Or.inr rfl) he.symm)]
              exact batPackFold_lookup_preserve sn sfx _ b pfs data k
                (fun k' hk' => h k' (Or.inl hk'))
  | jnull => cases hok
  | jbool b' => cases hok
  | jnum q => cases hok
  | jarr xs => cases hok
  | jobj fs => cases hok

theorem batteryPack_keysNodup (sn sfx : String) (ibat : Nat) (b : String)
    (payload : JValue) (data data' : SensorMap)
    (hok : batteryPack sn sfx ibat b payload data = .ok data')
    (h : keysNodup data) : keysNodup data' := by
  unfold batteryPack at hok
  cases payload with
  | jstr s =>
    cases hdec : json_loads s with
    | error e => simp only [hdec] at hok; cases hok
    | ok d_bat =>
      simp only [hdec] at hok
      cases hobj : d_bat.asObj with
      | error e => simp only [hobj] at hok; cases hok
      | ok pfs =>
        simp only [hobj] at hok
        cases htemp : dlookup pfs "bpTemp" with
        | none => simp only [htemp] at hok; cases hok
        | some temp =>
          simp only [htemp] at hok
          cases htr : toRatList temp with
          | error e => simp only [htr] at hok; cases hok
          | ok temps =>
            simp only [htr] at hok
            by_cases hz : temps.length = 0
            · rw [if_pos hz] at hok; cases hok
            · rw [if_neg hz] at hok
              simp only [Except.ok.injEq] at hok
              rw [← hok]
              exact keysNodup_dinsert _ _ _
                (batPackFold_keysNodup sn sfx _ b pfs data h)
  | jnull => cases hok
  | jbool b' => cases hok
  | jnum q => cases hok
  | jarr xs => cases hok
  | jobj fs => cases hok

theorem batLoop_keysNodup (sn sfx : String) (bfs : List (String × JValue))
    (batts : List String) (ibat : Nat) (data data' : SensorMap)
    (hok : batLoop sn sfx bfs batts ibat data = .ok data')
    (h : keysNodup data) : keysNodup data' := by
  induction batts generalizing ibat data with
  | nil =>
    simp only [batLoop, Except.ok.injEq] at hok
    rw [← hok]; exact h
  | cons b rest ih =>
    simp only [batLoop] at hok
    cases hlk : dlookup bfs b with
    | none => simp only [hlk] at hok; cases hok
    | some payload =>
      simp only [hlk] at hok
      cases hstep : batteryPack sn sfx ibat b payload data with
      | error e => simp only [hstep] at hok; cases hok
      | ok data1 =>
        simp only [hstep] at hok
        exact ih _ _ hok (batteryPack_keysNodup sn sfx ibat b payload data data1 hstep h)

theorem batLoop_preserve (sn sfx : String) (bfs : List (String × JValue))
    (batts : List String) (ibat : Nat) (data data' : SensorMap) (k : String)
    (hok : batLoop sn sfx bfs batts ibat data = .ok data')
    (h : ∀ b ∈ batts, ∀ k', (k' ∈ bat_sens_select ∨ k' = "bpTemp") →
      k ≠ bp_uid sn b k') :
    dlookup data' k = dlookup data k := by
  induction batts generalizing ibat data with
  | nil =>
    simp only [batLoop, Except.ok.injEq] at hok
    rw [← hok]
  | cons b rest ih =>
    simp only [batLoop] at hok
    cases hlk : dlookup bfs b with
    | none => simp only [hlk] at hok; cases hok
    | some payload =>
      simp only [hlk] at hok
      cases hstep : batteryPack sn sfx ibat b payload data with
      | error e => simp only [hstep] at hok; cases hok
      | ok data1 =>
        simp only [hstep] at hok
        rw [ih _ _ hok (fun b' hb' => h b' (List.mem_cons_of_mem _ hb'))]
        exact batteryPack_preserve sn sfx ibat b payload data data1 k hstep
          (h b (List.mem_cons_self _ _))

theorem batLoop_mean (sn sfx : String) (bfs : List (String × JValue))
    (batts : List String) (ibat : Nat) (data data' : SensorMap)
    (bat s : String) (pfs : List (String × JValue)) (temps : List Rat)
    (hok : batLoop sn sfx bfs batts ibat data = .ok data')
    (hmem : bat ∈ batts)
    (hnodup : batts.Nodup)
    (hbat : dlookup bfs bat = some (.jstr s))
    (hdec : json_loads s = .ok (.jobj pfs))
    (htemp : dlookup pfs "bpTemp" = some (.jarr (temps.map JValue.jnum)))
    (hne : temps ≠ []) :
    ∃ rec, dlookup data' (bp_uid sn bat "bpTemp") = some rec ∧
      rec.internal_unique_id = bp_uid sn bat "bpTemp" ∧
      rec.value = .jnum (temps.sum / (temps.length : Rat)) ∧
      rec.unit = some "°C" ∧
      rec.serial = sn := by
  induction batts generalizing ibat data with
  | nil => cases hmem
  | cons b rest ih =>
    simp only [batLoop] at hok
    simp only [List.nodup_cons] at hnodup
    by_cases hb : b = bat
    · subst hb
      simp only [hbat] at hok
      rw [batteryPack_mean_eq sn sfx ibat b s pfs temps data hdec htemp hne] at hok
      replace hok : batLoop sn sfx bfs rest (ibat + 1)
          (dinsert (batPackFold sn sfx ("bpack" ++ toString (ibat + 1) ++ "_")
            b pfs data) (bp_uid sn b "bpTemp")
            (battery_record sn sfx ("bpack" ++ toString (ibat + 1) ++ "_") b
              "bpTemp" (.jnum (temps.sum / (temps.length : Rat))))) =
          .ok data' := hok
      have hpres := batLoop_preserve sn sfx bfs rest (ibat + 1) _ data'
        (bp_uid sn b "bpTemp") hok ?side
      case side =>
        intro b' hb' k' hk' heq
        have hu : '_' ∉ k'.data := by
          rcases hk' with hk' | hk'
          · exact bat_select_no_underscore k' hk'
          · rw [hk']; exact bpTemp_no_underscore
        obtain ⟨hbb, -⟩ :=
          bp_uid_split sn b' b k' "bpTemp" hu bpTemp_no_underscore heq.symm
        exact hnodup.1 (hbb ▸ hb')
      refine ⟨battery_record sn sfx ("bpack" ++ toString (ibat + 1) ++ "_") b
        "bpTemp" (.jnum (temps.sum / (temps.length : Rat))),
        ?_, rfl, rfl, rfl, rfl⟩
      rw [hpres]
      exact dlookup_dinsert_self _ _ _
    · have hmem' : bat ∈ rest := by
        rcases List.mem_cons.mp hmem with h | h
        · exact absurd h.symm hb
        · exact h
      cases hlk : dlookup bfs b with
      | none => simp only [hlk] at hok; cases hok
      | some payload =>
        simp only [hlk] at hok
        cases hstep : batteryPack sn sfx ibat b payload data with
        | error e => simp only [hstep] at hok; cases hok
        | ok data1 =>
          simp only [hstep] at hok
          exact ih _ _ hok hmem' hnodup.2

/-- Claim C7: for every recognized battery pack (key longer than 12
characters) whose decoded payload holds a non-empty numeric `bpTemp` array,
the battery extractor emits exactly one derived record under unique id
`{inverter_sn}_JTS1_BP_STA_REPORT_{pack_key}_bpTemp`, with value the
arithmetic mean of the array and unit `°C`. -/
theorem c7_battery_mean (sn sfx bat s : String)
    (dfs bfs pfs : List (String × JValue)) (temps : List Rat) (m : SensorMap)
    (hroot : dlookup dfs "JTS1_BP_STA_REPORT" = some (.jobj bfs))
    (hnd : (bfs.map Prod.fst).Nodup)
    (hbat : dlookup bfs bat = some (.jstr s))
    (hlen : 12 < bat.length)
    (hdec : json_loads s = .ok (.jobj pfs))
    (htemp : dlookup pfs "bpTemp" = some (.jarr (temps.map JValue.jnum)))
    (hne : temps ≠ [])
    (hok : get_sensors_battery (.jobj dfs) [] sn sfx = .ok m) :
    ∃ rec, dlookup m (bp_uid sn bat "bpTemp") = some rec ∧
      rec.internal_unique_id = bp_uid sn bat "bpTemp" ∧
      rec.value = .jnum (temps.sum / (temps.length : Rat)) ∧
      rec.unit = some "°C" ∧
      (m.filter (fun e => e.1 = bp_uid sn bat "bpTemp")).length = 1 := by
  unfold get_sensors_battery at hok
  simp only [JValue.getKey, hroot, JValue.asObj] at hok
  cases hloop : batLoop sn sfx bfs
      ((bfs.map Prod.fst).filter (fun x => 12 < x.length)) 0 [] with
  | error e => simp only [hloop] at hok; cases hok
  | ok data' =>
    simp only [hloop, Except.ok.injEq] at hok
    have hmem : bat ∈ (bfs.map Prod.fst).filter (fun x => 12 < x.length) :=
      List.mem_filter.mpr ⟨dlookup_some_mem_keys bfs bat _ hbat, by simpa using hlen⟩
    have hnodupb : ((bfs.map Prod.fst).filter (fun x => 12 < x.length)).Nodup :=
      hnd.filter _
    obtain ⟨rec, hl, h1, h2, h3, h4⟩ := batLoop_mean sn sfx bfs _ 0 [] data'
      bat s pfs temps hloop hmem hnodupb hbat hdec htemp hne
    have hdn : keysNodup data' :=
      batLoop_keysNodup sn sfx bfs _ 0 [] data' hloop (by simp [keysNodup])
    have hm : dlookup m (bp_uid sn bat "bpTemp") = some rec := by
      rw [← hok]
      exact dlookup_dupdate_of_nodup _ _ _ _ hdn hl
    refine ⟨rec, hm, h1, h2, h3, ?_⟩
    exact filter_count_one m _ _
      (by rw [← hok]; exact keysNodup_dupdate _ _ (by simp [keysNodup])) hm

theorem c7_witness :
    ∃ rec, dlookup mBatteryFix (bp_uid "SN1" "HJ32ZDH4HF7J0001" "bpTemp") =
        some rec ∧
      rec.internal_unique_id = bp_uid "SN1" "HJ32ZDH4HF7J0001" "bpTemp" ∧
      rec.value = .jnum (([(20 : Rat), 22, 24]).sum /
        (([(20 : Rat), 22, 24]).length : Rat)) ∧
      rec.unit = some "°C" ∧
      (mBatteryFix.filter
        (fun e => e.1 = bp_uid "SN1" "HJ32ZDH4HF7J0001" "bpTemp")).length = 1 :=
  c7_battery_mean "SN1" "" "HJ32ZDH4HF7J0001" packPayload dfs7 bfs7 pfs7
    [20, 22, 24] mBatteryFix rfl (by decide) rfl (by decide) rfl rfl
    (by simp) rfl

/-- The mean of `bpTemp = [20, 22, 24]` is exactly 22 (the spec's worked
example), as computed by the extractor's `sum(temp)/len(temp)`. -/
theorem bpTemp_mean_example :
    ([(20 : Rat), 22, 24]).sum / (([(20 : Rat), 22, 24]).length : Rat) = 22 := by
  norm_num

/-! ## Serial attribution in heartbeat records (claim C9) -/

theorem list_isPrefixOf_append_of (a s t : List Char)
    (h : a.isPrefixOf s = true) : a.isPrefixOf (s ++ t) = true := by
  induction a generalizing s with
  | nil => simp [List.isPrefixOf]
  | cons c a' ih =>
    cases s with
    | nil => simp [List.isPrefixOf] at h
    | cons d s' =>
      simp only [List.isPrefixOf, Bool.and_eq_true, beq_iff_eq] at h
      simp only [List.cons_append, List.isPrefixOf, Bool.and_eq_true, beq_iff_eq]
      exact ⟨h.1, ih s' h.2⟩

theorem pyStartsWith_append_of (s t a : String)
    (h : pyStartsWith s a = true) : pyStartsWith (s ++ t) a = true := by
  unfold pyStartsWith at h ⊢
  rw [String.data_append]
  exact list_isPrefixOf_append_of _ _ _ h

theorem hbScalarFold_serialOk (self_sn inv_sn sfx : String)
    (fs : List (String × JValue)) (data : SensorMap) (lk : Option String)
    (h : ∀ e ∈ data, serialOk self_sn inv_sn e) :
    ∀ e ∈ (hbScalarFold inv_sn sfx fs data lk).1, serialOk self_sn inv_sn e := by
  induction fs generalizing data lk with
  | nil => exact h
  | cons e0 rest ih =>
    obtain ⟨k0, v0⟩ := e0
    simp only [hbScalarFold]
    apply ih
    split
    · exact forall_mem_dinsert _ _ _ _ h (Or.inl rfl)
    · exact h

theorem phaseFold_serialOk (self_sn inv_sn sfx phase : String)
    (fs : List (String × JValue)) (data : SensorMap) (lk : Option String)
    (h : ∀ e ∈ data, serialOk self_sn inv_sn e) :
    ∀ e ∈ (phaseFold inv_sn sfx phase fs data lk).1, serialOk self_sn inv_sn e := by
  induction fs generalizing data lk with
  | nil => exact h
  | cons e0 rest ih =>
    obtain ⟨k0, v0⟩ := e0
    simp only [phaseFold]
    exact ih _ _ (forall_mem_dinsert _ _ _ _ h (Or.inl rfl))

theorem phaseLoop_serialOk (self_sn inv_sn sfx : String)
    (hfs : List (String × JValue)) (ph : List String) (data : SensorMap)
    (lk : Option String) (out : SensorMap × Option String)
    (h : ∀ e ∈ data, serialOk self_sn inv_sn e)
    (hok : phaseLoop inv_sn sfx hfs ph data lk = .ok out) :
    ∀ e ∈ out.1, serialOk self_sn inv_sn e := by
  induction ph generalizing data lk with
  | nil =>
    simp only [phaseLoop, Except.ok.injEq] at hok
    rw [← hok]; exact h
  | cons phase rest ih =>
    simp only [phaseLoop] at hok
    cases hlk : dlookup hfs phase with
    | none => simp only [hlk] at hok; cases hok
    | some v =>
      simp only [hlk] at hok
      cases hobj : v.asObj with
      | error e => simp only [hobj] at hok; cases hok
      | ok pf =>
        simp only [hobj] at hok
        exact ih _ _ (phaseFold_serialOk self_sn inv_sn sfx phase pf data lk h) hok

theorem mpptFieldFold_serialOk (self_sn inv_sn sfx mpptpv : String)
    (pf : List (String × JValue)) (data : SensorMap) (lk : Option String)
    (s : Rat) (out : SensorMap × Option String × Rat)
    (hpv : pyStartsWith mpptpv "mpptPv" = true)
    (h : ∀ e ∈ data, serialOk self_sn inv_sn e)
    (hok : mpptFieldFold self_sn inv_sn sfx mpptpv pf data lk s = .ok out) :
    ∀ e ∈ out.1, serialOk self_sn inv_sn e := by
  induction pf generalizing data lk s with
  | nil =>
    simp only [mpptFieldFold, Except.ok.injEq] at hok
    rw [← hok]; exact h
  | cons e0 rest ih =>
    obtain ⟨k0, v0⟩ := e0
    have hrec : serialOk self_sn inv_sn
        (hb_uid inv_sn ("mpptHeartBeat_" ++ mpptpv ++ "_" ++ k0),
         mppt_record self_sn inv_sn sfx mpptpv k0 v0) := by
      right
      refine ⟨rfl, ?_⟩
      show pyStartsWith (mpptpv ++ "_" ++ k0 ++ sfx) "mpptPv" = true
      exact pyStartsWith_append_of _ _ _
        (pyStartsWith_append_of _ _ _ (pyStartsWith_append_of _ _ _ hpv))
    simp only [mpptFieldFold] at hok
    by_cases hk : k0 = "pwr"
    · rw [if_pos hk] at hok
      cases hq : pyNum v0 with
      | error e => rw [hq] at hok; cases hok
      | ok q =>
        rw [hq] at hok
        exact ih _ _ _ (forall_mem_dinsert _ _ _ _ h hrec) hok
    · rw [if_neg hk] at hok
      exact ih _ _ _ (forall_mem_dinsert _ _ _ _ h hrec) hok

theorem mpptLoop_serialOk (self_sn inv_sn sfx : String) (xs : List JValue)
    (i : Nat) (data : SensorMap) (lk : Option String) (s : Rat)
    (out : SensorMap × Option String × Rat)
    (h : ∀ e ∈ data, serialOk self_sn inv_sn e)
    (hok : mpptLoop self_sn inv_sn sfx xs i data lk s = .ok out) :
    ∀ e ∈ out.1, serialOk self_sn inv_sn e := by
  induction xs generalizing i data lk s with
  | nil =>
    simp only [mpptLoop, Except.ok.injEq] at hok
    rw [← hok]; exact h
  | cons el rest ih =>
    simp only [mpptLoop] at hok
    cases hobj : el.asObj with
    | error e => simp only [hobj] at hok; cases hok
    | ok pf =>
      simp only [hobj] at hok
      cases hf : mpptFieldFold self_sn inv_sn sfx ("mpptPv" ++ toString (i + 1))
          pf data lk s with
      | error e => simp only [hf] at hok; cases hok
      | ok trip =>
        obtain ⟨data', lk', s'⟩ := trip
        simp only [hf] at hok
        exact ih _ _ _ _ (mpptFieldFold_serialOk self_sn inv_sn sfx _ pf data lk s
          (data', lk', s') (pyStartsWith_append _ _) h hf) hok

/-- Claim C9 (amended): in every record the heartbeat extractor emits, the
`serial` field equals the inverter's serial, EXCEPT possibly the per-PV-string
records (friendly name starting `mpptPv`), which carry the instance's own
configured serial instead. -/
theorem c9_heartbeat_serials (self_sn inv_sn sfx : String) (root : JValue)
    (m : SensorMap)
    (hok : get_sensors_ems_heartbeat self_sn root [] inv_sn sfx = .ok m) :
    ∀ e ∈ m, e.2.serial = inv_sn ∨
      (e.2.serial = self_sn ∧ pyStartsWith e.2.friendly_name "mpptPv" = true) := by
  unfold get_sensors_ems_heartbeat at hok
  cases hroot : root.getKey "JTS1_EMS_HEARTBEAT" with
  | error e => simp only [hroot] at hok; cases hok
  | ok d =>
  simp only [hroot] at hok
  cases hobj : d.asObj with
  | error e => simp only [hobj] at hok; cases hok
  | ok hfs =>
  simp only [hobj] at hok
  cases hsc : hbScalarFold inv_sn sfx hfs [] none with
  | mk data0 lk0 =>
  simp only [hsc] at hok
  have h0 : ∀ e ∈ data0, serialOk self_sn inv_sn e := by
    have := hbScalarFold_serialOk self_sn inv_sn sfx hfs [] none (by simp)
    rwa [hsc] at this
  cases hph : phaseLoop inv_sn sfx hfs phases data0 lk0 with
  | error e => simp only [hph] at hok; cases hok
  | ok pair =>
  obtain ⟨data1, lk1⟩ := pair
  simp only [hph] at hok
  have h1 : ∀ e ∈ data1, serialOk self_sn inv_sn e :=
    phaseLoop_serialOk self_sn inv_sn sfx hfs phases data0 lk0 (data1, lk1) h0 hph
  cases hhb : d.getKey "mpptHeartBeat" with
  | error e => simp only [hhb] at hok; cases hok
  | ok hb =>
  simp only [hhb] at hok
  cases hi0 : index0 hb with
  | error e => simp only [hi0] at hok; cases hok
  | ok el0 =>
  simp only [hi0] at hok
  cases hpvk : el0.getKey "mpptPv" with
  | error e => simp only [hpvk] at hok; cases hok
  | ok mpv =>
  simp only [hpvk] at hok
  cases hels : mpvElems mpv with
  | error e => simp only [hels] at hok; cases hok
  | ok xs =>
  simp only [hels] at hok
  cases hloop : mpptLoop self_sn inv_sn sfx xs 0 data1 lk1 0 with
  | error e => simp only [hloop] at hok; cases hok
  | ok trip =>
  obtain ⟨data2, lk2, total⟩ := trip
  simp only [hloop] at hok
  have h2 : ∀ e ∈ data2, serialOk self_sn inv_sn e :=
    mpptLoop_serialOk self_sn inv_sn sfx xs 0 data1 lk1 0 (data2, lk2, total) h1 hloop
  cases lk2 with
  | none => cases hok
  | some lk =>
  simp only [Except.ok.injEq] at hok
  intro e he
  rw [← hok] at he
  exact forall_mem_dupdate (serialOk self_sn inv_sn) [] _ (by simp)
    (forall_mem_dinsert _ _ _ _ h2 (Or.inl rfl)) e he

/-- Claim C9 counterexample: in the dual fixture, the record extracted from
the SLAVE inverter's report root for PV string 1 carries the instance's own
configured serial `J32EZEH4ZG3S0104`, not the slave serial `J32EZEH4ZG3S0042`
the claim requires. -/
theorem c9_counterexample :
    (get_serial_numbers "J32EZEH4ZG3S0104" dualResponse).map
        (fun p => p.1.slave_sn) = .ok (some "J32EZEH4ZG3S0042") ∧
    get_sensors "J32EZEH4ZG3S0104" dualResponse = .ok (some mDualFix) ∧
    (dlookup mDualFix
        "J32EZEH4ZG3S0042_JTS1_EMS_HEARTBEAT_mpptHeartBeat_mpptPv1_pwr").map
      (fun r => r.serial) = some "J32EZEH4ZG3S0104" ∧
    ("J32EZEH4ZG3S0104" : String) ≠ "J32EZEH4ZG3S0042" :=
  ⟨rfl, rfl, rfl, by decide⟩

theorem c9_witness :
    mHeartbeatSlaveFix.all (fun e => e.2.serial == "J32EZEH4ZG3S0042" ||
      (e.2.serial == "J32EZEH4ZG3S0104" &&
        pyStartsWith e.2.friendly_name "mpptPv")) = true := by
  rw [List.all_eq_true]
  intro e he
  rcases c9_heartbeat_serials "J32EZEH4ZG3S0104" "J32EZEH4ZG3S0042" "_slave"
      reportTree mHeartbeatSlaveFix rfl e he with h | ⟨h1, h2⟩
  · simp [h]
  · simp [h1, h2]

theorem dataFold_uidOk (sn : String) (fs : List (String × JValue))
    (sensors : SensorMap) (h : ∀ e ∈ sensors, uidOk e) :
    ∀ e ∈ dataFold sn fs sensors, uidOk e := by
  induction fs generalizing sensors with
  | nil => exact h
  | cons e0 rest ih =>
    obtain ⟨k0, v0⟩ := e0
    simp only [dataFold]
    apply ih
    split
    · exact forall_mem_dinsert _ _ _ _ h rfl
    · exact h

theorem get_sensors_data_uidOk (sn : String) (response : JValue) (m : SensorMap)
    (hok : get_sensors_data sn response = .ok m) : ∀ e ∈ m, uidOk e := by
  unfold get_sensors_data at hok
  cases hd : response.getKey "data" with
  | error e => simp only [hd] at hok; cases hok
  | ok d =>
    simp only [hd] at hok
    cases hobj : d.asObj with
    | error e => simp only [hobj] at hok; cases hok
    | ok fields =>
      simp only [hobj, Except.ok.injEq] at hok
      rw [← hok]
      exact dataFold_uidOk sn fields [] (by simp)

theorem emsChangeFold_uidOk (sn sfx : String) (sel : List String)
    (fs : List (String × JValue)) (data : SensorMap)
    (h : ∀ e ∈ data, uidOk e) :
    ∀ e ∈ emsChangeFold sn sfx sel fs data, uidOk e := by
  induction fs generalizing data with
  | nil => exact h
  | cons e0 rest ih =>
    obtain ⟨k0, v0⟩ := e0
    simp only [emsChangeFold]
    apply ih
    split
    · exact forall_mem_dinsert _ _ _ _ h rfl
    · exact h

theorem get_sensors_ems_change_uidOk (root : JValue) (sensors : SensorMap)
    (sn sfx : String) (m : SensorMap)
    (h : ∀ e ∈ sensors, uidOk e)
    (hok : get_sensors_ems_change root sensors sn sfx = .ok m) :
    ∀ e ∈ m, uidOk e := by
  unfold get_sensors_ems_change at hok
  cases hd : root.getKey "JTS1_EMS_CHANGE_REPORT" with
  | error e => simp only [hd] at hok; cases hok
  | ok d =>
    simp only [hd] at hok
    cases hobj : d.asObj with
    | error e => simp only [hobj] at hok; cases hok
    | ok fields =>
      simp only [hobj, Except.ok.injEq] at hok
      rw [← hok]
      exact forall_mem_dupdate uidOk _ _ h
        (emsChangeFold_uidOk sn sfx _ fields [] (by simp))

theorem batPackFold_uidOk (sn sfx name bat : String)
    (pfs : List (String × JValue)) (data : SensorMap)
    (h : ∀ e ∈ data, uidOk e) :
    ∀ e ∈ batPackFold sn sfx name bat pfs data, uidOk e := by
  induction pfs generalizing data with
  | nil => exact h
  | cons e0 rest ih =>
    obtain ⟨k0, v0⟩ := e0
    simp only [batPackFold]
    apply ih
    split
    · exact forall_mem_dinsert _ _ _ _ h rfl
    · exact h

theorem batteryPack_uidOk (sn sfx : String) (ibat : Nat) (b : String)
    (payload : JValue) (data data' : SensorMap)
    (hok : batteryPack sn sfx ibat b payload data = .ok data')
    (h : ∀ e ∈ data, uidOk e) : ∀ e ∈ data', uidOk e := by
  unfold batteryPack at hok
  cases payload with
  | jstr s =>
    cases hdec : json_loads s with
    | error e => simp only [hdec] at hok; cases hok
    | ok d_bat =>
      simp only [hdec] at hok
      cases hobj : d_bat.asObj with
      | error e => simp only [hobj] at hok; cases hok
      | ok pfs =>
        simp only [hobj] at hok
        cases htemp : dlookup pfs "bpTemp" with
        | none => simp only [htemp] at hok; cases hok
        | some temp =>
          simp only [htemp] at hok
          cases htr : toRatList temp with
          | error e => simp only [htr] at hok; cases hok
          | ok temps =>
            simp only [htr] at hok
            by_cases hz : temps.length = 0
            · rw [if_pos hz] at hok; cases hok
            · rw [if_neg hz] at hok
              simp only [Except.ok.injEq] at hok
              rw [← hok]
              exact forall_mem_dinsert _ _ _ _
                (batPackFold_uidOk sn sfx _ b pfs data h) rfl
  | jnull => cases hok
  | jbool b' => cases hok
  | jnum q => cases hok
  | jarr xs => cases hok
  | jobj fs => cases hok

theorem batLoop_uidOk (sn sfx : String) (bfs : List (String × JValue))
    (batts : List String) (ibat : Nat) (data data' : SensorMap)
    (hok : batLoop sn sfx bfs batts ibat data = .ok data')
    (h : ∀ e ∈ data, uidOk e) : ∀ e ∈ data', uidOk e := by
  induction batts generalizing ibat data with
  | nil =>
    simp only [batLoop, Except.ok.injEq] at hok
    rw [← hok]; exact h
  | cons b rest ih =>
    simp only [batLoop] at hok
    cases hlk : dlookup bfs b with
    | none => simp only [hlk] at hok; cases hok
    | some payload =>
      simp only [hlk] at hok
      cases hstep : batteryPack sn sfx ibat b payload data with
      | error e => simp only [hstep] at hok; cases hok
      | ok data1 =>
        simp only [hstep] at hok
        exact ih _ _ hok (batteryPack_uidOk sn sfx ibat b payload data data1 hstep h)

theorem get_sensors_battery_uidOk (root : JValue) (sensors : SensorMap)
    (sn sfx : String) (m : SensorMap)
    (h : ∀ e ∈ sensors, uidOk e)
    (hok : get_sensors_battery root sensors sn sfx = .ok m) :
    ∀ e ∈ m, uidOk e := by
  unfold get_sensors_battery at hok
  cases hd : root.getKey "JTS1_BP_STA_REPORT" with
  | error e => simp only [hd] at hok; cases hok
  | ok d =>
    simp only [hd] at hok
    cases hobj : d.asObj with
    | error e => simp only [hobj] at hok; cases hok
    | ok bfs =>
      simp only [hobj] at hok
      cases hloop : batLoop sn sfx bfs
          ((bfs.map Prod.fst).filter (fun x => 12 < x.length)) 0 [] with
      | error e => simp only [hloop] at hok; cases hok
      | ok data' =>
        simp only [hloop, Except.ok.injEq] at hok
        rw [← hok]
        exact forall_mem_dupdate uidOk _ _ h
          (batLoop_uidOk sn sfx bfs _ 0 [] data' hloop (by simp))

theorem hbScalarFold_uidOk (inv_sn sfx : String) (fs : List (String × JValue))
    (data : SensorMap) (lk : Option String) (h : ∀ e ∈ data, uidOk e) :
    ∀ e ∈ (hbScalarFold inv_sn sfx fs data lk).1, uidOk e := by
  induction fs generalizing data lk with
  | nil => exact h
  | cons e0 rest ih =>
    obtain ⟨k0, v0⟩ := e0
    simp only [hbScalarFold]
    apply ih
    split
    · exact forall_mem_dinsert _ _ _ _ h rfl
    · exact h

theorem phaseFold_uidOk (inv_sn sfx phase : String)
    (fs : List (String × JValue)) (data : SensorMap) (lk : Option String)
    (h : ∀ e ∈ data, uidOk e) :
    ∀ e ∈ (phaseFold inv_sn sfx phase fs data lk).1, uidOk e := by
  induction fs generalizing data lk with
  | nil => exact h
  | cons e0 rest ih =>
    obtain ⟨k0, v0⟩ := e0
    simp only [phaseFold]
    exact ih _ _ (forall_mem_dinsert _ _ _ _ h rfl)

theorem phaseLoop_uidOk (inv_sn sfx : String) (hfs : List (String × JValue))
    (ph : List String) (data : SensorMap) (lk : Option String)
    (out : SensorMap × Option String)
    (h : ∀ e ∈ data, uidOk e)
    (hok : phaseLoop inv_sn sfx hfs ph data lk = .ok out) :
    ∀ e ∈ out.1, uidOk e := by
  induction ph generalizing data lk with
  | nil =>
    simp only [phaseLoop, Except.ok.injEq] at hok
    rw [← hok]; exact h
  | cons phase rest ih =>
    simp only [phaseLoop] at hok
    cases hlk : dlookup hfs phase with
    | none => simp only [hlk] at hok; cases hok
    | some v =>
      simp only [hlk] at hok
      cases hobj : v.asObj with
      | error e => simp only [hobj] at hok; cases hok
      | ok pf =>
        simp only [hobj] at hok
        exact ih _ _ (phaseFold_uidOk inv_sn sfx phase pf data lk h) hok

theorem mpptFieldFold_uidOk (self_sn inv_sn sfx mpptpv : String)
    (pf : List (String × JValue)) (data : SensorMap) (lk : Option String)
    (s : Rat) (out : SensorMap × Option String × Rat)
    (h : ∀ e ∈ data, uidOk e)
    (hok : mpptFieldFold self_sn inv_sn sfx mpptpv pf data lk s = .ok out) :
    ∀ e ∈ out.1, uidOk e := by
  induction pf generalizing data lk s with
  | nil =>
    simp only [mpptFieldFold, Except.ok.injEq] at hok
    rw [← hok]; exact h
  | cons e0 rest ih =>
    obtain ⟨k0, v0⟩ := e0
    have hrec : uidOk (hb_uid inv_sn ("mpptHeartBeat_" ++ mpptpv ++ "_" ++ k0),
        mppt_record self_sn inv_sn sfx mpptpv k0 v0) := rfl
    simp only [mpptFieldFold] at hok
    by_cases hk : k0 = "pwr"
    · rw [if_pos hk] at hok
      cases hq : pyNum v0 with
      | error e => rw [hq] at hok; cases hok
      | ok q =>
        rw [hq] at hok
        exact ih _ _ _ (forall_mem_dinsert _ _ _ _ h hrec) hok
    · rw [if_neg hk] at hok
      exact ih _ _ _ (forall_mem_dinsert _ _ _ _ h hrec) hok

theorem mpptLoop_uidOk (self_sn inv_sn sfx : String) (xs : List JValue)
    (i : Nat) (data : SensorMap) (lk : Option String) (s : Rat)
    (out : SensorMap × Option String × Rat)
    (h : ∀ e ∈ data, uidOk e)
    (hok : mpptLoop self_sn inv_sn sfx xs i data lk s = .ok out) :
    ∀ e ∈ out.1, uidOk e := by
  induction xs generalizing i data lk s with
  | nil =>
    simp only [mpptLoop, Except.ok.injEq] at hok
    rw [← hok]; exact h
  | cons el rest ih =>
    simp only [mpptLoop] at hok
    cases hobj : el.asObj with
    | error e => simp only [hobj] at hok; cases hok
    | ok pf =>
      simp only [hobj] at hok
      cases hf : mpptFieldFold self_sn inv_sn sfx ("mpptPv" ++ toString (i + 1))
          pf data lk s with
      | error e => simp only [hf] at hok; cases hok
      | ok trip =>
        obtain ⟨data', lk', s'⟩ := trip
        simp only [hf] at hok
        exact ih _ _ _ _ (mpptFieldFold_uidOk self_sn inv_sn sfx _ pf data lk s
          (data', lk', s') h hf) hok

theorem get_sensors_ems_heartbeat_uidOk (self_sn : String) (root : JValue)
    (sensors : SensorMap) (inv_sn sfx : String) (m : SensorMap)
    (h : ∀ e ∈ sensors, uidOk e)
    (hok : get_sensors_ems_heartbeat self_sn root sensors inv_sn sfx = .ok m) :
    ∀ e ∈ m, uidOk e := by
  unfold get_sensors_ems_heartbeat at hok
  cases hroot : root.getKey "JTS1_EMS_HEARTBEAT" with
  | error e => simp only [hroot] at hok; cases hok
  | ok d =>
  simp only [hroot] at hok
  cases hobj : d.asObj with
  | error e => simp only [hobj] at hok; cases hok
  | ok hfs =>
  simp only [hobj] at hok
  cases hsc : hbScalarFold inv_sn sfx hfs [] none with
  | mk data0 lk0 =>
  simp only [hsc] at hok
  have h0 : ∀ e ∈ data0, uidOk e := by
    have := hbScalarFold_uidOk inv_sn sfx hfs [] none (by simp)
    rwa [hsc] at this
  cases hph : phaseLoop inv_sn sfx hfs phases data0 lk0 with
  | error e => simp only [hph] at hok; cases hok
  | ok pair =>
  obtain ⟨data1, lk1⟩ := pair
  simp only [hph] at hok
  have h1 : ∀ e ∈ data1, uidOk e :=
    phaseLoop_uidOk inv_sn sfx hfs phases data0 lk0 (data1, lk1) h0 hph
  cases hhb : d.getKey "mpptHeartBeat" with
  | error e => simp only [hhb] at hok; cases hok
  | ok hb =>
  simp only [hhb] at hok
  cases hi0 : index0 hb with
  | error e => simp only [hi0] at hok; cases hok
  | ok el0 =>
  simp only [hi0] at hok
  cases hpvk : el0.getKey "mpptPv" with
  | error e => simp only [hpvk] at hok; cases hok
  | ok mpv =>
  simp only [hpvk] at hok
  cases hels : mpvElems mpv with
  | error e => simp only [hels] at hok; cases hok
  | ok xs =>
  simp only [hels] at hok
  cases hloop : mpptLoop self_sn inv_sn sfx xs 0 data1 lk1 0 with
  | error e => simp only [hloop] at hok; cases hok
  | ok trip =>
  obtain ⟨data2, lk2, total⟩ := trip
  simp only [hloop] at hok
  have h2 : ∀ e ∈ data2, uidOk e :=
    mpptLoop_uidOk self_sn inv_sn sfx xs 0 data1 lk1 0 (data2, lk2, total) h1 hloop
  cases lk2 with
  | none => cases hok
  | some lk =>
  simp only [Except.ok.injEq] at hok
  rw [← hok]
  exact forall_mem_dupdate uidOk _ _ h (forall_mem_dinsert _ _ _ _ h2 rfl)

/-- Claim C10: whenever `_get_sensors` returns a map, every entry is stored
under exactly its record's `internal_unique_id`; every extractor inserts each
record under its own id, and merging with `dict.update` preserves this. -/
theorem c10_keying_invariant (sn : String) (response : JValue) (m : SensorMap)
    (hok : get_sensors sn response = .ok (some m)) :
    ∀ e ∈ m, e.2.internal_unique_id = e.1 := by
  unfold get_sensors at hok
  cases hres : get_serial_numbers sn response with
  | error e => simp only [hres] at hok; cases hok
  | ok p =>
  obtain ⟨st, serials⟩ := p
  simp only [hres] at hok
  cases hms : (if serials = 2 then some "_master"
      else if serials = 0 then some "" else none) with
  | none => simp only [hms] at hok; cases hok
  | some master_string =>
  simp only [hms] at hok
  cases hdata : get_sensors_data sn response with
  | error e => simp only [hdata] at hok; cases hok
  | ok s0 =>
  simp only [hdata] at hok
  have h0 : ∀ e ∈ s0, uidOk e := get_sensors_data_uidOk sn response s0 hdata
  cases hmd : attr st.master_data "master_data" with
  | error e => simp only [hmd] at hok; cases hok
  | ok master_data =>
  simp only [hmd] at hok
  cases hmsn : attr st.master_sn "master_sn" with
  | error e => simp only [hmsn] at hok; cases hok
  | ok master_sn =>
  simp only [hmsn] at hok
  cases hc : get_sensors_ems_change master_data s0 master_sn master_string with
  | error e => simp only [hc] at hok; cases hok
  | ok s1 =>
  simp only [hc] at hok
  have h1 : ∀ e ∈ s1, uidOk e :=
    get_sensors_ems_change_uidOk master_data s0 master_sn master_string s1 h0 hc
  cases hb : get_sensors_battery master_data s1 master_sn master_string with
  | error e => simp only [hb] at hok; cases hok
  | ok s2 =>
  simp only [hb] at hok
  have h2 : ∀ e ∈ s2, uidOk e :=
    get_sensors_battery_uidOk master_data s1 master_sn master_string s2 h1 hb
  cases hh : get_sensors_ems_heartbeat sn master_data s2 master_sn master_string with
  | error e => simp only [hh] at hok; cases hok
  | ok s3 =>
  simp only [hh] at hok
  have h3 : ∀ e ∈ s3, uidOk e :=
    get_sensors_ems_heartbeat_uidOk sn master_data s2 master_sn master_string s3 h2 hh
  by_cases h2c : serials = 2
  · rw [if_pos h2c] at hok
    cases hsd : attr st.slave_data "slave_data" with
    | error e => simp only [hsd] at hok; cases hok
    | ok slave_data =>
    simp only [hsd] at hok
    cases hssn : attr st.slave_sn "slave_sn" with
    | error e => simp only [hssn] at hok; cases hok
    | ok slave_sn =>
    simp only [hssn] at hok
    cases hc2 : get_sensors_ems_change slave_data s3 slave_sn "_slave" with
    | error e => simp only [hc2] at hok; cases hok
    | ok s4 =>
    simp only [hc2] at hok
    have h4 : ∀ e ∈ s4, uidOk e :=
      get_sensors_ems_change_uidOk slave_data s3 slave_sn "_slave" s4 h3 hc2
    cases hb2 : get_sensors_battery slave_data s4 slave_sn "_slave" with
    | error e => simp only [hb2] at hok; cases hok
    | ok s5 =>
    simp only [hb2] at hok
    have h5 : ∀ e ∈ s5, uidOk e :=
      get_sensors_battery_uidOk slave_data s4 slave_sn "_slave" s5 h4 hb2
    cases hh2 : get_sensors_ems_heartbeat sn slave_data s5 slave_sn "_slave" with
    | error e => simp only [hh2] at hok; cases hok
    | ok s6 =>
    simp only [hh2, Except.ok.injEq, Option.some.injEq] at hok
    rw [← hok]
    exact get_sensors_ems_heartbeat_uidOk sn slave_data s5 slave_sn "_slave" s6 h5 hh2
  · rw [if_neg h2c] at hok
    simp only [Except.ok.injEq, Option.some.injEq] at hok
    rw [← hok]
    exact h3

theorem c10_witness :
    mDualFix.all (fun e => e.2.internal_unique_id == e.1) = true := by
  rw [List.all_eq_true]
  intro e he
  exact beq_iff_eq.mpr
    (c10_keying_invariant "J32EZEH4ZG3S0104" dualResponse mDualFix rfl e he)
